import Mathlib

/-!
# Verification of `move_and_rename_files_from_xOpenSPIM.py`

A shallow embedding of the filename codec and the directory-monitoring logic of
`move_and_rename_files_from_xOpenSPIM.py`, together with theorems settling the
frozen claims about that program.

Modelling conventions:

* Python strings are modelled as `String` / `List Char` (ASCII range; the
  filenames the program handles are ASCII).
* Python `int` is modelled as `Int`; Python's `int(str)` parser is modelled by
  `pyIntOf` (optional surrounding whitespace, optional sign, decimal digits
  with single `_` separators between digits).
* `re.split(r"timelapseID-|SPC-|TP-|ILL-|CAM-|CH-|PL-|outOf-|\.", s)` is
  modelled by `resplit`: a left-to-right scan that, at each position, tries the
  alternatives in their written order (Python alternation is ordered and none
  of these alternatives can match the empty string).
* `re.match` for the ingest pattern
  `_channel(\d+)_position(\d+)_time(\d+)_view(\d+)_z(\d+)\.(\w+)` is modelled
  by `ingestMatch`.  The pattern is anchored at the start only; every `(\d+)`
  group is followed by a literal whose first character is not a digit, so the
  greedy matching of Python's engine is equivalent to "take the maximal digit
  run, then require the literal", which is what `ingestMatch` does.
* Exceptions raised by the decoders (`NotImagePlaneFile`) are modelled with
  `Except`; filesystem effects (copies) are modelled as values (`ProcResult`),
  and the two concurrent triggers as explicit actions on a `MonitorState`.
-/

/-! ## Python string helpers -/

/-- The character set of Python's `strip("-_")`. -/
def isDU (c : Char) : Bool := c == '-' || c == '_'

/-- Python `s.strip("-_")` on a list of characters. -/
def stripDU (s : List Char) : List Char :=
  ((s.dropWhile isDU).reverse.dropWhile isDU).reverse

/-- Python `s.strip()` (whitespace strip), as performed by `int(str)`. -/
def stripWS (s : List Char) : List Char :=
  ((s.dropWhile Char.isWhitespace).reverse.dropWhile Char.isWhitespace).reverse

/-- Numeric value of an ASCII digit character. -/
def digitVal (c : Char) : Nat := c.toNat - 48

/-- Digit tail of Python's `int(str)`: after the first digit, accepts further
digits, with single `_` separators allowed between digits only. -/
def intDigitsGo (acc : Nat) : List Char → Option Nat
  | [] => some acc
  | c :: cs =>
    if c == '_' then
      match cs with
      | [] => none
      | c2 :: cs2 => if c2.isDigit then intDigitsGo (10 * acc + digitVal c2) cs2 else none
    else if c.isDigit then intDigitsGo (10 * acc + digitVal c) cs else none

/-- Python `int(s)` for a decimal string: optional surrounding whitespace,
optional sign, then digits (with `_` group separators).  Returns `none` where
Python raises `ValueError`. -/
def pyIntOf (s : List Char) : Option Int :=
  match stripWS s with
  | [] => none
  | c :: cs =>
    if c == '+' then
      match cs with
      | [] => none
      | c2 :: cs2 => if c2.isDigit then (intDigitsGo (digitVal c2) cs2).map Int.ofNat else none
    else if c == '-' then
      match cs with
      | [] => none
      | c2 :: cs2 =>
        if c2.isDigit then (intDigitsGo (digitVal c2) cs2).map (fun n => -(n : Int)) else none
    else if c.isDigit then (intDigitsGo (digitVal c) cs).map Int.ofNat else none

/-- Value of a plain digit string under the `int` semantics (no sign, no `_`). -/
def digitsToNat (s : List Char) : Nat := s.foldl (fun a c => 10 * a + digitVal c) 0

/-- Python `s.split("_", 1)`: the part before the first `_`, and — when a `_`
occurs — the verbatim remainder after it. -/
def splitOnce : List Char → List Char × Option (List Char)
  | [] => ([], none)
  | c :: cs =>
    if c == '_' then ([], some cs)
    else
      let r := splitOnce cs
      (c :: r.1, r.2)

/-! ## Decimal formatting (Python f-string `{n:0w}`) -/

/-- Left-pad with `c` to width `w`. -/
def leftPad (c : Char) (w : Nat) (s : List Char) : List Char :=
  List.replicate (w - s.length) c ++ s

/-- Decimal digits of `n`, most significant first (fuel-driven so that it
reduces by `rfl`); empty for `0`. -/
def natDigitsGo : Nat → Nat → List Char
  | 0, _ => []
  | fuel + 1, n =>
    if n = 0 then [] else natDigitsGo fuel (n / 10) ++ [Nat.digitChar (n % 10)]

/-- Decimal digit string of a natural number (`"0"` for `0`). -/
def natDigits (n : Nat) : List Char := if n = 0 then ['0'] else natDigitsGo (n + 1) n

/-- Python `f"{n:0w}"` for an `int`: decimal representation, zero-padded to
total width `w`, with the padding inserted after the sign.  `w = 0` gives the
plain `f"{n}"` formatting. -/
def pyFormatZ (w : Nat) (n : Int) : List Char :=
  if n < 0 then '-' :: leftPad '0' (w - 1) (natDigits n.natAbs)
  else leftPad '0' w (natDigits n.natAbs)

/-- String version of `pyFormatZ`. -/
def fmtZ (w : Nat) (n : Int) : String := ⟨pyFormatZ w n⟩

/-! ## The canonical split (`re.split(r"timelapseID-|SPC-|TP-|ILL-|CAM-|CH-|PL-|outOf-|\.", s)`) -/

/-- Split alternative `timelapseID-`. -/
def tlD : List Char := "timelapseID-".data

/-- Split alternative `SPC-`. -/
def spcD : List Char := "SPC-".data

/-- Split alternative `TP-`. -/
def tpD : List Char := "TP-".data

/-- Split alternative `ILL-`. -/
def illD : List Char := "ILL-".data

/-- Split alternative `CAM-`. -/
def camD : List Char := "CAM-".data

/-- Split alternative `CH-`. -/
def chD : List Char := "CH-".data

/-- Split alternative `PL-`. -/
def plD : List Char := "PL-".data

/-- Split alternative `outOf-`. -/
def ooD : List Char := "outOf-".data

/-- Split alternative `\.` (matches every dot, not only the last one). -/
def dotD : List Char := ".".data

/-- All split alternatives, in the order they appear in the pattern. -/
def delimList : List (List Char) := [tlD, spcD, tpD, illD, camD, chD, plD, ooD, dotD]

/-- First split alternative matching at the head of `s` (ordered alternation),
returning the length of the match. -/
def matchDelim (s : List Char) : Option Nat :=
  if tlD <+: s then some 12
  else if spcD <+: s then some 4
  else if tpD <+: s then some 3
  else if illD <+: s then some 4
  else if camD <+: s then some 4
  else if chD <+: s then some 3
  else if plD <+: s then some 3
  else if ooD <+: s then some 6
  else if dotD <+: s then some 1
  else none

/-- Scan for the first delimiter match in `s`: on success, the segment before
the match and the remainder after the match. -/
def findSplit : List Char → Option (List Char × List Char)
  | [] => none
  | c :: cs =>
    match matchDelim (c :: cs) with
    | some n => some ([], cs.drop (n - 1))
    | none => (findSplit cs).map (fun r => (c :: r.1, r.2))

/-- Fueled worker for `resplit`.  Every delimiter match consumes at least one
character, so fuel `s.length` always suffices; when the fuel hits `0` the
remainder is necessarily empty and the two branches agree. -/
def resplitN : Nat → List Char → List (List Char)
  | 0, s => [s]
  | fuel + 1, s =>
    match findSplit s with
    | none => [s]
    | some (seg, rest) => seg :: resplitN fuel rest

/-- `re.split` with the canonical pattern. -/
def resplit (s : List Char) : List (List Char) := resplitN s.length s

/-! ## Well-formed segments and how `resplit` treats them -/

/-- A segment is *delimiter-safe* when no suffix of it starts a split
alternative (neither containing one as a prefix nor being a proper prefix of
one): such a segment can never take part in a delimiter match, whatever
follows it. -/
def okSeg (s : List Char) : Prop :=
  ∀ n, n < s.length → ∀ d ∈ delimList, ¬ d <+: s.drop n ∧ ¬ s.drop n <+: d

instance (s : List Char) : Decidable (okSeg s) := by
  unfold okSeg
  infer_instance

/-- The possible first characters of the split alternatives. -/
def delimHeads : List Char := ['t', 'S', 'T', 'I', 'C', 'P', 'o', '.']

/-- The shape of a filename under the canonical grammar: ten raw segments
joined by the nine delimiters, in grammar order. -/
def canonRaw (r0 r1 r2 r3 r4 r5 r6 r7 r8 r9 : List Char) : List Char :=
  r0 ++ (tlD ++ (r1 ++ (spcD ++ (r2 ++ (tpD ++ (r3 ++ (illD ++ (r4 ++ (camD ++
    (r5 ++ (chD ++ (r6 ++ (plD ++ (r7 ++ (ooD ++ (r8 ++ (dotD ++ r9)))))))))))))))))

/-- A filename of the canonical grammar
`[<ds>_]timelapseID-<id>_SPC-<s2>_TP-<s3>_ILL-<s4>_CAM-<s5>_CH-<s6>_PL-<s7>-outOf-<s8>[_<info>].<ext>`,
with the numeric fields supplied as raw digit strings. -/
def canonName (ds id s2 s3 s4 s5 s6 s7 s8 info ext : List Char) : List Char :=
  canonRaw (if ds = [] then [] else ds ++ ['_']) (id ++ ['_']) (s2 ++ ['_']) (s3 ++ ['_'])
    (s4 ++ ['_']) (s5 ++ ['_']) (s6 ++ ['_']) (s7 ++ ['-'])
    (if info = [] then s8 else s8 ++ '_' :: info) ext

/-! ## The data model -/

/-- The typed decode failure (`class NotImagePlaneFile(Exception)`). -/
structure NotImagePlaneFile where
  msg : String
deriving Repr, DecidableEq

/-- The structured image record built by `ImageFile.__init__` /
`get_ImageFile_from_xOpenSPIM_filename`.  The `path_to_image_dir` field is
omitted: it is mere path bookkeeping, set from the `file_dir` argument and
never involved in the claims. -/
structure ImageFile where
  dataset_name : String
  timelapse_id : String
  specimen : Int
  time_point : Int
  illumination : Int
  camera : Int
  channel : Int
  plane : Int
  total_num_planes : Int
  additional_info : String
  extension : String
deriving Repr, DecidableEq

/-- Error message of the `len(name_parts) != 10` branch. -/
def segmentErrMsg : String :=
  "Image file name is improperly formatted! Check documentation inside the script. Expected 10 parts after splitting by timelapseID-|SPC-|TP-|ILL-|CAM-|CH-|PL-|outOf-|\\."

/-- Error message of the `ValueError` branch of `__init__`. -/
def valueErrMsg : String := "This is not a valid filename for a single plane image file!"

/-- The trailing-segment parse of `__init__` (index 8): split once on `_`; a
single piece is `total_num_planes`, two pieces are `total_num_planes` and the
verbatim `additional_info`. -/
def parse8 (s : List Char) : Option (Int × List Char) :=
  match splitOnce s with
  | (a, none) => (pyIntOf (stripDU a)).map (fun t => (t, ([] : List Char)))
  | (a, some b) => (pyIntOf (stripDU a)).map (fun t => (t, b))

/-- The field-parsing stage of `ImageFile.__init__` (the `try` block): strip
each part of `-`/`_`, parse the numeric fields with `int` in source order, and
short-circuit to `none` on the first `ValueError`.  The extension (part 9) is
stored verbatim — the source's `self.extension.lower()` discards its result. -/
def parseFields (p0 p1 p2 p3 p4 p5 p6 p7 p8 p9 : List Char) : Option ImageFile :=
  (pyIntOf (stripDU p2)).bind fun specimen =>
  (pyIntOf (stripDU p3)).bind fun time_point =>
  (pyIntOf (stripDU p4)).bind fun illumination =>
  (pyIntOf (stripDU p5)).bind fun camera =>
  (pyIntOf (stripDU p6)).bind fun channel =>
  (pyIntOf (stripDU p7)).bind fun plane =>
  (parse8 (stripDU p8)).bind fun ti =>
  some { dataset_name := ⟨stripDU p0⟩, timelapse_id := ⟨stripDU p1⟩,
         specimen, time_point, illumination, camera, channel, plane,
         total_num_planes := ti.1, additional_info := ⟨ti.2⟩, extension := ⟨p9⟩ }

/-- `ImageFile.__init__` on a basename: the canonical decoder.  Splits on the
delimiters, requires exactly 10 parts, and parses the fields; a `ValueError`
becomes the second error, a wrong part count the first. -/
def mkImageFileCore (file_name : List Char) : Except NotImagePlaneFile ImageFile :=
  match resplit file_name with
  | [p0, p1, p2, p3, p4, p5, p6, p7, p8, p9] =>
    match parseFields p0 p1 p2 p3 p4 p5 p6 p7 p8 p9 with
    | some r => .ok r
    | none => .error ⟨valueErrMsg⟩
  | _ => .error ⟨segmentErrMsg⟩

/-- `ImageFile.__init__` applied to a filename given as a `String`. -/
def mkImageFile (file_name : String) : Except NotImagePlaneFile ImageFile :=
  mkImageFileCore file_name.data

/-! ## The ingest decoder (`get_ImageFile_from_xOpenSPIM_filename`) -/

/-- Python's `\w` for the ASCII range. -/
def isWordChar (c : Char) : Bool := c.isAlphanum || c == '_'

/-- Require the literal `lit` at the head of `s`. -/
def expectLit (lit s : List Char) : Option (List Char) :=
  if lit <+: s then some (s.drop lit.length) else none

/-- A `(\d+)` group followed by a non-digit literal: the maximal digit run
(must be non-empty). -/
def takeDigits (s : List Char) : Option (List Char × List Char) :=
  match s.takeWhile Char.isDigit with
  | [] => none
  | d => some (d, s.dropWhile Char.isDigit)

/-- `re.match(r"_channel(\d+)_position(\d+)_time(\d+)_view(\d+)_z(\d+)\.(\w+)", s)`:
the six captured groups, or `none` when the match fails.  Anchored at the
start only; trailing characters after the match are ignored.  Each `(\d+)`
group is followed by a literal beginning with a non-digit (`_` or `.`), so
the greedy matching of Python's engine is exactly "maximal digit run, then
the literal"; the final `(\w+)` is the maximal word-character run. -/
def ingestMatch (s : List Char) :
    Option (List Char × List Char × List Char × List Char × List Char × List Char) :=
  match expectLit "_channel".data s with
  | none => none
  | some s1 =>
  match takeDigits s1 with
  | none => none
  | some (g1, s2) =>
  match expectLit "_position".data s2 with
  | none => none
  | some s3 =>
  match takeDigits s3 with
  | none => none
  | some (g2, s4) =>
  match expectLit "_time".data s4 with
  | none => none
  | some s5 =>
  match takeDigits s5 with
  | none => none
  | some (g3, s6) =>
  match expectLit "_view".data s6 with
  | none => none
  | some s7 =>
  match takeDigits s7 with
  | none => none
  | some (g4, s8) =>
  match expectLit "_z".data s8 with
  | none => none
  | some s9 =>
  match takeDigits s9 with
  | none => none
  | some (g5, s10) =>
  match expectLit ".".data s10 with
  | none => none
  | some s11 =>
  match s11.takeWhile isWordChar with
  | [] => none
  | g6 => some (g1, g2, g3, g4, g5, g6)

/-- Error message for a failed ingest match. -/
def xOpenSPIMErrMsg : String := "xOpenSPIM file name is improperly formatted!"

/-- Error message of the (unreachable) `ValueError` branch of the ingest
decoder. -/
def xOpenSPIMValueErrMsg : String :=
  "This is not a valid custom filename for a single plane image file!"

/-- `ImageFile.get_ImageFile_from_xOpenSPIM_filename`: decode the ingest
grammar.  On a match: `channel`, `specimen` (from "position"), `time_point`,
`plane` (digits after `z`) and `extension` come from the groups; the `view`
group is dropped; the remaining fields are the hard-coded defaults of the
source. -/
def ImageFile.get_ImageFile_from_xOpenSPIM_filename (file_name : String) :
    Except NotImagePlaneFile ImageFile :=
  match ingestMatch file_name.data with
  | some (g1, g2, g3, _g4, g5, g6) =>
    match pyIntOf g1, pyIntOf g2, pyIntOf g3, pyIntOf g5 with
    | some channel, some specimen, some time_point, some plane =>
      .ok { dataset_name := "", timelapse_id := "20240808-111112",
            specimen, time_point, illumination := 0, camera := 0, channel, plane,
            total_num_planes := 1, additional_info := "", extension := ⟨g6⟩ }
    | _, _, _, _ => .error ⟨xOpenSPIMValueErrMsg⟩
  | none => .error ⟨xOpenSPIMErrMsg⟩

/-- `ImageFile.get_name`: the PLANE-mode encoder (the f-string of the source,
with `{:04}` and `{:02}` zero padding and empty optional segments omitted). -/
def ImageFile.get_name (f : ImageFile) : String :=
  (if f.dataset_name = "" then "" else f.dataset_name ++ "_")
  ++ "timelapseID-" ++ f.timelapse_id
  ++ "_SPC-" ++ fmtZ 4 f.specimen
  ++ "_TP-" ++ fmtZ 4 f.time_point
  ++ "_ILL-" ++ fmtZ 0 f.illumination
  ++ "_CAM-" ++ fmtZ 0 f.camera
  ++ "_CH-" ++ fmtZ 2 f.channel
  ++ "_PL-" ++ fmtZ 4 f.plane
  ++ "-outOf-" ++ fmtZ 4 f.total_num_planes
  ++ (if f.additional_info = "" then "" else "_" ++ f.additional_info)
  ++ "." ++ f.extension

/-! ## The processing pipeline and the two triggers -/

/-- `os.path.basename` (POSIX): the part after the last `/`. -/
def baseName (s : String) : String := ⟨(s.data.reverse.takeWhile (fun c => !(c == '/'))).reverse⟩

/-- `os.path.join` for the shapes the program uses (a directory joined with a
relative basename). -/
def joinPath (a b : String) : String := if a = "" then b else a ++ "/" ++ b

/-- Observable outcome of `FileEventHandler.process` on one file: either a
copy to a destination path, or a caught-and-reported error. -/
inductive ProcResult where
  | copied (src dst : String)
  | errorReported (msg : String)
deriving Repr, DecidableEq

/-- `FileEventHandler.process`: decode the basename with the ingest decoder,
build the destination path from `get_name`, and copy; any exception is caught
by the surrounding `try`/`except` and reported. -/
def FileEventHandler.process (output_folder file_path : String) : ProcResult :=
  match ImageFile.get_ImageFile_from_xOpenSPIM_filename (baseName file_path) with
  | .ok image_file => .copied file_path (joinPath output_folder image_file.get_name)
  | .error e => .errorReported e.msg

/-- One observable event of the reconcile scan. -/
inductive ScanEvent where
  | invoked (path : String) (result : ProcResult)
  | inserted (path : String)
deriving Repr, DecidableEq

/-- `scan_directory`: list the directory, keep regular files not already in
`processed_files`, sort ascending by modification time, then for each file
invoke the processor and afterwards insert the path into `processed_files`.
The directory listing and the `isfile`/`getmtime` calls are parameters of
the model.  Python's `list.sort` is a stable sort, and a stable sort's
output is uniquely determined by the key order and the original positions,
so the stable `insertionSort` models it exactly. -/
def scan_directory (output_folder input_folder : String) (listing : List String)
    (isfile : String → Bool) (mtime : String → Int) (processed_files : List String) :
    List ScanEvent × List String :=
  let new_files := (listing.map (fun fn => joinPath input_folder fn)).filter
    (fun p => isfile p && !(processed_files.contains p))
  let sorted := new_files.insertionSort (fun a b => mtime a ≤ mtime b)
  sorted.foldl
    (fun acc f =>
      (acc.1 ++ [ScanEvent.invoked f (FileEventHandler.process output_folder f),
                 ScanEvent.inserted f],
       acc.2 ++ [f]))
    ([], processed_files)

/-- Shared state of `monitor_folder`: the `processed_files` set (modelled as a
list) and the history of processing events. -/
structure MonitorState where
  processed_files : List String
  log : List ScanEvent
deriving Repr, DecidableEq

/-- `FileEventHandler.on_created` for a non-directory entry: process the path.
It does not touch `processed_files`. -/
def on_created (output_folder : String) (st : MonitorState) (path : String) : MonitorState :=
  { st with
    log := st.log ++ [ScanEvent.invoked path (FileEventHandler.process output_folder path)] }

/-- One tick of the periodic reconcile scan. -/
def reconcile_tick (output_folder input_folder : String) (listing : List String)
    (isfile : String → Bool) (mtime : String → Int) (st : MonitorState) : MonitorState :=
  let r := scan_directory output_folder input_folder listing isfile mtime st.processed_files
  { processed_files := r.2, log := st.log ++ r.1 }

/-- Number of processor invocations for path `p` in a log. -/
def countInvocations (p : String) (log : List ScanEvent) : Nat :=
  (log.filter (fun e => match e with | .invoked q _ => q == p | _ => false)).length

/-- The events one reconcile pass appends for the files it processes, in this
order per file: invoke the processor, then insert into `processed_files`. -/
def processLog (output_folder : String) : List String → List ScanEvent
  | [] => []
  | f :: t => ScanEvent.invoked f (FileEventHandler.process output_folder f)
      :: ScanEvent.inserted f :: processLog output_folder t

/-- A prefix of a concatenation is a prefix of the first part, or extends it. -/
lemma prefixDichotomy {d a b : List Char} (h : d <+: a ++ b) : d <+: a ∨ a <+: d := by
  rcases le_total d.length a.length with hl | hl
  · exact Or.inl (List.prefix_of_prefix_length_le h (List.prefix_append a b) hl)
  · exact Or.inr (List.prefix_of_prefix_length_le (List.prefix_append a b) h hl)

/-- Head mismatch rules out a prefix. -/
lemma notPreHead {c b : Char} {l1 l2 : List Char} (h : c ≠ b) : ¬ (c :: l1 <+: b :: l2) :=
  fun hp => h (List.cons_prefix_cons.mp hp).1

/-- Second-character mismatch rules out a prefix. -/
lemma notPreHead2 {a b c d : Char} {l1 l2 : List Char} (h : b ≠ d) :
    ¬ (a :: b :: l1 <+: c :: d :: l2) :=
  fun hp => h (List.cons_prefix_cons.mp (List.cons_prefix_cons.mp hp).2).1

lemma matchDelim_nil : matchDelim [] = none := rfl

/-- `matchDelim` only ever reports strictly positive match lengths. -/
lemma matchDelim_pos {s : List Char} {n : Nat} (h : matchDelim s = some n) : 0 < n := by
  unfold matchDelim at h
  repeat' split at h
  all_goals first
    | (cases h; omega)
    | cases h

/-- If no alternative is a prefix of `s`, `matchDelim` fails. -/
lemma matchDelim_eq_none {s : List Char} (h : ∀ d ∈ delimList, ¬ d <+: s) :
    matchDelim s = none := by
  have h1 := h tlD (by simp [delimList])
  have h2 := h spcD (by simp [delimList])
  have h3 := h tpD (by simp [delimList])
  have h4 := h illD (by simp [delimList])
  have h5 := h camD (by simp [delimList])
  have h6 := h chD (by simp [delimList])
  have h7 := h plD (by simp [delimList])
  have h8 := h ooD (by simp [delimList])
  have h9 := h dotD (by simp [delimList])
  simp only [matchDelim, if_neg h1, if_neg h2, if_neg h3, if_neg h4, if_neg h5,
    if_neg h6, if_neg h7, if_neg h8, if_neg h9]

/-- A delimiter-safe segment produces no match at any of its positions, for
any continuation. -/
lemma okSeg_clean {s : List Char} (hs : okSeg s) (tail : List Char) :
    ∀ n, n < s.length → matchDelim (s.drop n ++ tail) = none := by
  intro n hn
  apply matchDelim_eq_none
  intro d hd hpre
  rcases prefixDichotomy hpre with h | h
  · exact (hs n hn d hd).1 h
  · exact (hs n hn d hd).2 h

/-- Delimiter-safety is closed under concatenation. -/
lemma okSeg_append {a b : List Char} (ha : okSeg a) (hb : okSeg b) : okSeg (a ++ b) := by
  intro n hn d hd
  rcases Nat.lt_or_ge n a.length with h | h
  · rw [List.drop_append_of_le_length (Nat.le_of_lt h)]
    refine ⟨fun hp => ?_, fun hp => ?_⟩
    · rcases prefixDichotomy hp with h2 | h2
      · exact (ha n h d hd).1 h2
      · exact (ha n h d hd).2 h2
    · exact (ha n h d hd).2 ((List.prefix_append (a.drop n) b).trans hp)
  · have hn' : n = a.length + (n - a.length) := by omega
    rw [hn', List.drop_append]
    have hlb : n - a.length < b.length := by
      have := List.length_append a b ▸ hn
      omega
    exact hb _ hlb d hd

/-- A string avoiding every alternative's first character is delimiter-safe. -/
lemma okSeg_of_heads {s : List Char} (h : ∀ c ∈ s, c ∉ delimHeads) : okSeg s := by
  intro n hn d hd
  have hne : s.drop n ≠ [] := by
    intro he
    rw [List.drop_eq_nil_iff] at he
    omega
  obtain ⟨c, t, hct⟩ := List.exists_cons_of_ne_nil hne
  have hc : c ∈ s := List.drop_subset n s (hct ▸ List.mem_cons_self c t)
  have hcn := h c hc
  rw [hct]
  have hne' : ∀ b : Char, b ∈ delimHeads → c ≠ b := fun b hb he => hcn (he ▸ hb)
  simp only [delimList, List.mem_cons, List.not_mem_nil, or_false] at hd
  rcases hd with hd | hd | hd | hd | hd | hd | hd | hd | hd <;> subst hd <;>
    exact ⟨notPreHead (fun he => hcn (he ▸ (by decide))) , notPreHead (hne' _ (by decide))⟩

/-- Digit strings are delimiter-safe. -/
lemma okSeg_digits {s : List Char} (h : ∀ c ∈ s, c.isDigit) : okSeg s := by
  apply okSeg_of_heads
  intro c hc hmem
  have hd := h c hc
  fin_cases hmem <;> simp_all [Char.isDigit]

/-! ### `findSplit` and `resplitN` -/

/-- `findSplit` fails on a string with no match anywhere. -/
lemma findSplit_clean_none {s : List Char}
    (h : ∀ n, n < s.length → matchDelim (s.drop n) = none) : findSplit s = none := by
  induction s with
  | nil => rfl
  | cons c cs ih =>
    have h0 : matchDelim (c :: cs) = none := by simpa using h 0 (by simp)
    have hih : findSplit cs = none := by
      apply ih
      intro n hn
      have := h (n + 1) (by simpa using Nat.succ_lt_succ hn)
      simpa [List.drop_succ_cons] using this
    simp [findSplit, h0, hih]

/-- `findSplit` on a delimiter-safe segment followed by a match: the segment
is returned whole and the remainder starts after the match. -/
lemma findSplit_append {s : List Char} (tail : List Char)
    (hclean : ∀ n, n < s.length → matchDelim (s.drop n ++ tail) = none)
    {n : Nat} (hm : matchDelim tail = some n) :
    findSplit (s ++ tail) = some (s, tail.drop n) := by
  induction s with
  | nil =>
    cases tail with
    | nil => rw [matchDelim_nil] at hm; cases hm
    | cons c cs =>
      have hn1 : 0 < n := matchDelim_pos hm
      have : (c :: cs).drop n = cs.drop (n - 1) := by
        obtain ⟨m, rfl⟩ : ∃ m, n = m + 1 := ⟨n - 1, by omega⟩
        simp [List.drop_succ_cons]
      simp [findSplit, hm, this]
  | cons a s' ih =>
    have h0 : matchDelim (a :: (s' ++ tail)) = none := by simpa using hclean 0 (by simp)
    have hih := ih (fun k hk => by
      have := hclean (k + 1) (by simpa using Nat.succ_lt_succ hk)
      simpa [List.drop_succ_cons] using this)
    simp [findSplit, h0, hih]

/-- Every successful `findSplit` consumes at least one character. -/
lemma findSplit_shrink {s seg rest : List Char} (h : findSplit s = some (seg, rest)) :
    seg.length + rest.length < s.length := by
  induction s generalizing seg rest with
  | nil => cases h
  | cons c cs ih =>
    rw [findSplit] at h
    cases hm : matchDelim (c :: cs) with
    | some n =>
      rw [hm] at h
      cases h
      simp only [List.length_nil, Nat.zero_add, List.length_cons, List.length_drop]
      omega
    | none =>
      rw [hm] at h
      cases hfs : findSplit cs with
      | none => rw [hfs] at h; cases h
      | some r =>
        rw [hfs] at h
        cases h
        have hr : r.1.length + r.2.length < cs.length := ih (by rw [hfs])
        simp only [List.length_cons]
        omega

/-- Above the length of the input, the fuel of `resplitN` is irrelevant. -/
lemma resplitN_fuel {f1 : Nat} : ∀ {f2 : Nat} {s : List Char},
    s.length ≤ f1 → s.length ≤ f2 → resplitN f1 s = resplitN f2 s := by
  induction f1 with
  | zero =>
    intro f2 s h1 _
    have : s = [] := List.length_eq_zero.mp (by omega)
    subst this
    cases f2 with
    | zero => rfl
    | succ m => simp [resplitN, findSplit]
  | succ m1 ih =>
    intro f2 s h1 h2
    cases f2 with
    | zero =>
      have : s = [] := List.length_eq_zero.mp (by omega)
      subst this
      simp [resplitN, findSplit]
    | succ m2 =>
      rw [resplitN, resplitN]
      cases hfs : findSplit s with
      | none => rfl
      | some r =>
        obtain ⟨seg, rest⟩ := r
        have hlt := findSplit_shrink hfs
        show seg :: resplitN m1 rest = seg :: resplitN m2 rest
        have hr : resplitN m1 rest = resplitN m2 rest := ih (by omega) (by omega)
        rw [hr]

/-- Peeling one canonical delimiter off a `resplit`. -/
lemma resplit_step {s tail : List Char} (hs : okSeg s) {n : Nat}
    (hm : matchDelim tail = some n) :
    resplit (s ++ tail) = s :: resplit (tail.drop n) := by
  have hfind : findSplit (s ++ tail) = some (s, tail.drop n) :=
    findSplit_append tail (okSeg_clean hs tail) hm
  have ht : tail ≠ [] := by
    intro h
    rw [h, matchDelim_nil] at hm
    cases hm
  have hlen : 0 < (s ++ tail).length := by
    simp only [List.length_append]
    cases tail with
    | nil => exact absurd rfl ht
    | cons c cs => simp
  obtain ⟨m, hm'⟩ : ∃ m, (s ++ tail).length = m + 1 := ⟨(s ++ tail).length - 1, by omega⟩
  unfold resplit
  rw [hm', resplitN, hfind]
  have hshr := findSplit_shrink hfind
  show s :: resplitN m (tail.drop n) = s :: resplitN (tail.drop n).length (tail.drop n)
  have hr : resplitN m (tail.drop n) = resplitN (tail.drop n).length (tail.drop n) :=
    resplitN_fuel (by omega) (by omega)
  rw [hr]

/-- A delimiter-safe string does not split. -/
lemma resplit_whole {s : List Char} (hs : okSeg s) : resplit s = [s] := by
  have hfind : findSplit s = none :=
    findSplit_clean_none (fun k hk => by simpa using okSeg_clean hs [] k hk)
  unfold resplit
  cases s.length with
  | zero => rfl
  | succ m => rw [resplitN, hfind]

/-! ### The nine delimiter junctions -/

lemma matchDelim_tl (rest : List Char) : matchDelim (tlD ++ rest) = some 12 := by
  unfold matchDelim
  rw [if_pos (List.prefix_append tlD rest)]

lemma matchDelim_spc (rest : List Char) : matchDelim (spcD ++ rest) = some 4 := by
  have h1 : ¬ tlD <+: spcD ++ rest := notPreHead (by decide)
  unfold matchDelim
  rw [if_neg h1, if_pos (List.prefix_append spcD rest)]

lemma matchDelim_tp (rest : List Char) : matchDelim (tpD ++ rest) = some 3 := by
  have h1 : ¬ tlD <+: tpD ++ rest := notPreHead (by decide)
  have h2 : ¬ spcD <+: tpD ++ rest := notPreHead (by decide)
  unfold matchDelim
  rw [if_neg h1, if_neg h2, if_pos (List.prefix_append tpD rest)]

lemma matchDelim_ill (rest : List Char) : matchDelim (illD ++ rest) = some 4 := by
  have h1 : ¬ tlD <+: illD ++ rest := notPreHead (by decide)
  have h2 : ¬ spcD <+: illD ++ rest := notPreHead (by decide)
  have h3 : ¬ tpD <+: illD ++ rest := notPreHead (by decide)
  unfold matchDelim
  rw [if_neg h1, if_neg h2, if_neg h3, if_pos (List.prefix_append illD rest)]

lemma matchDelim_cam (rest : List Char) : matchDelim (camD ++ rest) = some 4 := by
  have h1 : ¬ tlD <+: camD ++ rest := notPreHead (by decide)
  have h2 : ¬ spcD <+: camD ++ rest := notPreHead (by decide)
  have h3 : ¬ tpD <+: camD ++ rest := notPreHead (by decide)
  have h4 : ¬ illD <+: camD ++ rest := notPreHead (by decide)
  unfold matchDelim
  rw [if_neg h1, if_neg h2, if_neg h3, if_neg h4, if_pos (List.prefix_append camD rest)]

lemma matchDelim_ch (rest : List Char) : matchDelim (chD ++ rest) = some 3 := by
  have h1 : ¬ tlD <+: chD ++ rest := notPreHead (by decide)
  have h2 : ¬ spcD <+: chD ++ rest := notPreHead (by decide)
  have h3 : ¬ tpD <+: chD ++ rest := notPreHead (by decide)
  have h4 : ¬ illD <+: chD ++ rest := notPreHead (by decide)
  have h5 : ¬ camD <+: chD ++ rest := notPreHead2 (by decide)
  unfold matchDelim
  rw [if_neg h1, if_neg h2, if_neg h3, if_neg h4, if_neg h5,
    if_pos (List.prefix_append chD rest)]

lemma matchDelim_pl (rest : List Char) : matchDelim (plD ++ rest) = some 3 := by
  have h1 : ¬ tlD <+: plD ++ rest := notPreHead (by decide)
  have h2 : ¬ spcD <+: plD ++ rest := notPreHead (by decide)
  have h3 : ¬ tpD <+: plD ++ rest := notPreHead (by decide)
  have h4 : ¬ illD <+: plD ++ rest := notPreHead (by decide)
  have h5 : ¬ camD <+: plD ++ rest := notPreHead (by decide)
  have h6 : ¬ chD <+: plD ++ rest := notPreHead (by decide)
  unfold matchDelim
  rw [if_neg h1, if_neg h2, if_neg h3, if_neg h4, if_neg h5, if_neg h6,
    if_pos (List.prefix_append plD rest)]

lemma matchDelim_oo (rest : List Char) : matchDelim (ooD ++ rest) = some 6 := by
  have h1 : ¬ tlD <+: ooD ++ rest := notPreHead (by decide)
  have h2 : ¬ spcD <+: ooD ++ rest := notPreHead (by decide)
  have h3 : ¬ tpD <+: ooD ++ rest := notPreHead (by decide)
  have h4 : ¬ illD <+: ooD ++ rest := notPreHead (by decide)
  have h5 : ¬ camD <+: ooD ++ rest := notPreHead (by decide)
  have h6 : ¬ chD <+: ooD ++ rest := notPreHead (by decide)
  have h7 : ¬ plD <+: ooD ++ rest := notPreHead (by decide)
  unfold matchDelim
  rw [if_neg h1, if_neg h2, if_neg h3, if_neg h4, if_neg h5, if_neg h6, if_neg h7,
    if_pos (List.prefix_append ooD rest)]

lemma matchDelim_dot (rest : List Char) : matchDelim (dotD ++ rest) = some 1 := by
  have h1 : ¬ tlD <+: dotD ++ rest := notPreHead (by decide)
  have h2 : ¬ spcD <+: dotD ++ rest := notPreHead (by decide)
  have h3 : ¬ tpD <+: dotD ++ rest := notPreHead (by decide)
  have h4 : ¬ illD <+: dotD ++ rest := notPreHead (by decide)
  have h5 : ¬ camD <+: dotD ++ rest := notPreHead (by decide)
  have h6 : ¬ chD <+: dotD ++ rest := notPreHead (by decide)
  have h7 : ¬ plD <+: dotD ++ rest := notPreHead (by decide)
  have h8 : ¬ ooD <+: dotD ++ rest := notPreHead (by decide)
  unfold matchDelim
  rw [if_neg h1, if_neg h2, if_neg h3, if_neg h4, if_neg h5, if_neg h6, if_neg h7,
    if_neg h8, if_pos (List.prefix_append dotD rest)]

lemma resplit_step_tl {s : List Char} (hs : okSeg s) (rest : List Char) :
    resplit (s ++ (tlD ++ rest)) = s :: resplit rest := by
  have h := resplit_step hs (matchDelim_tl rest)
  rwa [show (tlD ++ rest).drop 12 = rest from List.drop_left tlD rest] at h

lemma resplit_step_spc {s : List Char} (hs : okSeg s) (rest : List Char) :
    resplit (s ++ (spcD ++ rest)) = s :: resplit rest := by
  have h := resplit_step hs (matchDelim_spc rest)
  rwa [show (spcD ++ rest).drop 4 = rest from List.drop_left spcD rest] at h

lemma resplit_step_tp {s : List Char} (hs : okSeg s) (rest : List Char) :
    resplit (s ++ (tpD ++ rest)) = s :: resplit rest := by
  have h := resplit_step hs (matchDelim_tp rest)
  rwa [show (tpD ++ rest).drop 3 = rest from List.drop_left tpD rest] at h

lemma resplit_step_ill {s : List Char} (hs : okSeg s) (rest : List Char) :
    resplit (s ++ (illD ++ rest)) = s :: resplit rest := by
  have h := resplit_step hs (matchDelim_ill rest)
  rwa [show (illD ++ rest).drop 4 = rest from List.drop_left illD rest] at h

lemma resplit_step_cam {s : List Char} (hs : okSeg s) (rest : List Char) :
    resplit (s ++ (camD ++ rest)) = s :: resplit rest := by
  have h := resplit_step hs (matchDelim_cam rest)
  rwa [show (camD ++ rest).drop 4 = rest from List.drop_left camD rest] at h

lemma resplit_step_ch {s : List Char} (hs : okSeg s) (rest : List Char) :
    resplit (s ++ (chD ++ rest)) = s :: resplit rest := by
  have h := resplit_step hs (matchDelim_ch rest)
  rwa [show (chD ++ rest).drop 3 = rest from List.drop_left chD rest] at h

lemma resplit_step_pl {s : List Char} (hs : okSeg s) (rest : List Char) :
    resplit (s ++ (plD ++ rest)) = s :: resplit rest := by
  have h := resplit_step hs (matchDelim_pl rest)
  rwa [show (plD ++ rest).drop 3 = rest from List.drop_left plD rest] at h

lemma resplit_step_oo {s : List Char} (hs : okSeg s) (rest : List Char) :
    resplit (s ++ (ooD ++ rest)) = s :: resplit rest := by
  have h := resplit_step hs (matchDelim_oo rest)
  rwa [show (ooD ++ rest).drop 6 = rest from List.drop_left ooD rest] at h

lemma resplit_step_dot {s : List Char} (hs : okSeg s) (rest : List Char) :
    resplit (s ++ (dotD ++ rest)) = s :: resplit rest := by
  have h := resplit_step hs (matchDelim_dot rest)
  rwa [show (dotD ++ rest).drop 1 = rest from List.drop_left dotD rest] at h

/-- `re.split` recovers exactly the ten raw segments of a canonical filename
whose segments are delimiter-safe. -/
lemma resplit_canonRaw {r0 r1 r2 r3 r4 r5 r6 r7 r8 r9 : List Char}
    (h0 : okSeg r0) (h1 : okSeg r1) (h2 : okSeg r2) (h3 : okSeg r3) (h4 : okSeg r4)
    (h5 : okSeg r5) (h6 : okSeg r6) (h7 : okSeg r7) (h8 : okSeg r8) (h9 : okSeg r9) :
    resplit (canonRaw r0 r1 r2 r3 r4 r5 r6 r7 r8 r9)
      = [r0, r1, r2, r3, r4, r5, r6, r7, r8, r9] := by
  unfold canonRaw
  rw [resplit_step_tl h0, resplit_step_spc h1, resplit_step_tp h2, resplit_step_ill h3,
    resplit_step_cam h4, resplit_step_ch h5, resplit_step_pl h6, resplit_step_oo h7,
    resplit_step_dot h8, resplit_whole h9]

/-! ### Digit strings, stripping, parsing and formatting -/

/-- A digit never `==`-equals a non-digit character. -/
lemma beq_char_false {c d : Char} (h : c.isDigit = true) (hd : d.isDigit = false) :
    (c == d) = false := by
  rcases Bool.eq_false_or_eq_true (c == d) with hb | hb
  swap
  · exact hb
  · exfalso
    have hcd : c = d := eq_of_beq hb
    rw [hcd, hd] at h
    cases h

lemma not_isDU_of_digit {c : Char} (h : c.isDigit = true) : isDU c = false := by
  have h1 : (c == '-') = false := beq_char_false h (by decide)
  have h2 : (c == '_') = false := beq_char_false h (by decide)
  simp [isDU, h1, h2]

lemma not_ws_of_digit {c : Char} (h : c.isDigit = true) : c.isWhitespace = false := by
  rcases Bool.eq_false_or_eq_true c.isWhitespace with hb | hb
  swap
  · exact hb
  · exfalso
    have hw : c = ' ' ∨ c = '\t' ∨ c = '\x0d' ∨ c = '\n' := by
      have := hb
      simp only [Char.isWhitespace, Bool.or_eq_true, decide_eq_true_eq] at this
      tauto
    rcases hw with rfl | rfl | rfl | rfl <;> exact absurd h (by decide)

lemma dropWhile_cons_false {p : Char → Bool} {c : Char} {t : List Char} (h : p c = false) :
    (c :: t).dropWhile p = c :: t := by
  simp [List.dropWhile_cons, h]

/-- `dropWhile` is the identity when every element fails the predicate. -/
lemma dropWhile_eq_self_of_all {p : Char → Bool} {s : List Char}
    (h : ∀ c ∈ s, p c = false) : s.dropWhile p = s := by
  cases s with
  | nil => rfl
  | cons c t => exact dropWhile_cons_false (h c (List.mem_cons_self c t))

lemma stripWS_digits {s : List Char} (h : ∀ c ∈ s, c.isDigit = true) : stripWS s = s := by
  unfold stripWS
  rw [dropWhile_eq_self_of_all (fun c hc => not_ws_of_digit (h c hc)),
    dropWhile_eq_self_of_all (fun c hc => not_ws_of_digit (h c (List.mem_reverse.mp hc))),
    List.reverse_reverse]

lemma stripDU_digits {s : List Char} (h : ∀ c ∈ s, c.isDigit = true) : stripDU s = s := by
  unfold stripDU
  rw [dropWhile_eq_self_of_all (fun c hc => not_isDU_of_digit (h c hc)),
    dropWhile_eq_self_of_all (fun c hc => not_isDU_of_digit (h c (List.mem_reverse.mp hc))),
    List.reverse_reverse]

/-- `strip("-_")` fixes a string with clean first and last characters. -/
lemma stripDU_of_clean {s : List Char} (h1 : s.dropWhile isDU = s)
    (h2 : s.reverse.dropWhile isDU = s.reverse) : stripDU s = s := by
  unfold stripDU
  rw [h1, h2, List.reverse_reverse]

/-- `strip("-_")` of a clean string with one strippable character appended. -/
lemma stripDU_append_du {s : List Char} {d : Char} (hd : isDU d = true)
    (h1 : s.dropWhile isDU = s) (h2 : s.reverse.dropWhile isDU = s.reverse) :
    stripDU (s ++ [d]) = s := by
  cases s with
  | nil =>
    unfold stripDU
    simp [List.dropWhile_cons, hd]
  | cons c t =>
    have hc : isDU c = false := by
      rw [List.dropWhile_eq_self_iff] at h1
      simpa using h1 (by simp)
    unfold stripDU
    rw [show ((c :: t) ++ [d]) = c :: (t ++ [d]) from rfl, dropWhile_cons_false hc]
    rw [show (c :: (t ++ [d])).reverse = d :: (c :: t).reverse by simp]
    rw [show (d :: (c :: t).reverse).dropWhile isDU = ((c :: t).reverse).dropWhile isDU by
      simp [List.dropWhile_cons, hd]]
    rw [h2, List.reverse_reverse]

/-- `strip("-_")` fixes `digits ++ '_' :: info` when `info` ends cleanly. -/
lemma stripDU_mid {s8 info : List Char} (h8 : ∀ c ∈ s8, c.isDigit = true) (h8ne : s8 ≠ [])
    (hinfo : info.reverse.dropWhile isDU = info.reverse) (hine : info ≠ []) :
    stripDU (s8 ++ '_' :: info) = s8 ++ '_' :: info := by
  obtain ⟨c, t, rfl⟩ := List.exists_cons_of_ne_nil h8ne
  have hrevne : info.reverse ≠ [] := by simpa using hine
  obtain ⟨e, u, heu⟩ := List.exists_cons_of_ne_nil hrevne
  have hc : isDU c = false := not_isDU_of_digit (h8 c (List.mem_cons_self c t))
  have he : isDU e = false := by
    rw [heu, List.dropWhile_eq_self_iff] at hinfo
    simpa using hinfo (by simp)
  unfold stripDU
  rw [show ((c :: t) ++ '_' :: info) = c :: (t ++ '_' :: info) from rfl,
    dropWhile_cons_false hc]
  rw [show (c :: (t ++ '_' :: info)).reverse = info.reverse ++ '_' :: (c :: t).reverse by
    simp]
  rw [heu]
  rw [show ((e :: u) ++ '_' :: (c :: t).reverse) = e :: (u ++ '_' :: (c :: t).reverse) from rfl,
    dropWhile_cons_false he]
  rw [show (e :: (u ++ '_' :: (c :: t).reverse)) = info.reverse ++ '_' :: (c :: t).reverse by
    rw [heu]
    rfl]
  rw [show (info.reverse ++ '_' :: (c :: t).reverse).reverse = c :: (t ++ '_' :: info) by
    simp]

/-- `split("_", 1)` without any underscore present. -/
lemma splitOnce_no_us {s : List Char} (h : ∀ c ∈ s, (c == '_') = false) :
    splitOnce s = (s, none) := by
  induction s with
  | nil => rfl
  | cons c t ih =>
    simp only [splitOnce, h c (List.mem_cons_self c t), Bool.false_eq_true, if_false]
    simp [ih (fun d hd => h d (List.mem_cons_of_mem c hd))]

/-- `split("_", 1)` at the first underscore. -/
lemma splitOnce_mid {a b : List Char} (h : ∀ c ∈ a, (c == '_') = false) :
    splitOnce (a ++ '_' :: b) = (a, some b) := by
  induction a with
  | nil => simp [splitOnce]
  | cons c t ih =>
    simp only [List.cons_append, splitOnce, h c (List.mem_cons_self c t),
      Bool.false_eq_true, if_false]
    simp [ih (fun d hd => h d (List.mem_cons_of_mem c hd))]

lemma intDigitsGo_digits {s : List Char} (h : ∀ c ∈ s, c.isDigit = true) :
    ∀ acc, intDigitsGo acc s = some (s.foldl (fun a c => 10 * a + digitVal c) acc) := by
  induction s with
  | nil => intro acc; rfl
  | cons c t ih =>
    intro acc
    have hc := h c (List.mem_cons_self c t)
    have hus : (c == '_') = false := beq_char_false hc (by decide)
    rw [intDigitsGo.eq_def]
    simp only [hus, Bool.false_eq_true, if_false, hc, if_true]
    rw [ih (fun d hd => h d (List.mem_cons_of_mem c hd))]
    rfl

/-- `int()` of a non-empty all-digit string is its value. -/
lemma pyIntOf_digits {s : List Char} (hne : s ≠ []) (h : ∀ c ∈ s, c.isDigit = true) :
    pyIntOf s = some (Int.ofNat (digitsToNat s)) := by
  obtain ⟨c, t, rfl⟩ := List.exists_cons_of_ne_nil hne
  have hws : stripWS (c :: t) = c :: t := stripWS_digits h
  have hc := h c (List.mem_cons_self c t)
  have hplus : (c == '+') = false := beq_char_false hc (by decide)
  have hminus : (c == '-') = false := beq_char_false hc (by decide)
  rw [pyIntOf.eq_def]
  simp only [hws, hplus, hminus, Bool.false_eq_true, if_false, hc, if_true]
  rw [intDigitsGo_digits (fun d hd => h d (List.mem_cons_of_mem c hd))]
  simp only [Option.map_some']
  unfold digitsToNat
  rw [List.foldl_cons]
  norm_num

lemma foldl_digit_append (l : List Char) (c : Char) (acc : Nat) :
    (l ++ [c]).foldl (fun a c => 10 * a + digitVal c) acc
      = 10 * l.foldl (fun a c => 10 * a + digitVal c) acc + digitVal c := by
  rw [List.foldl_append]
  rfl

lemma digitChar_isDigit {d : Nat} (h : d < 10) : (Nat.digitChar d).isDigit = true := by
  interval_cases d <;> decide

lemma digitChar_val {d : Nat} (h : d < 10) : digitVal (Nat.digitChar d) = d := by
  interval_cases d <;> decide

lemma natDigitsGo_all_digit : ∀ fuel n, ∀ c ∈ natDigitsGo fuel n, c.isDigit = true := by
  intro fuel
  induction fuel with
  | zero => intro n c hc; cases hc
  | succ m ih =>
    intro n c hc
    rw [natDigitsGo] at hc
    by_cases hn : n = 0
    · rw [if_pos hn] at hc; cases hc
    · rw [if_neg hn] at hc
      rcases List.mem_append.mp hc with h1 | h1
      · exact ih _ c h1
      · have hce : c = Nat.digitChar (n % 10) := by simpa using h1
        subst hce
        exact digitChar_isDigit (Nat.mod_lt _ (by omega))

lemma natDigitsGo_val : ∀ fuel n, n ≤ fuel → ∀ acc,
    (natDigitsGo fuel n).foldl (fun a c => 10 * a + digitVal c) acc
      = acc * 10 ^ (natDigitsGo fuel n).length + n := by
  intro fuel
  induction fuel with
  | zero =>
    intro n hn acc
    have h0 : n = 0 := by omega
    subst h0
    simp [natDigitsGo]
  | succ m ih =>
    intro n hn acc
    rw [natDigitsGo]
    by_cases h0 : n = 0
    · subst h0
      simp
    · rw [if_neg h0]
      have hlt : n / 10 < n := Nat.div_lt_self (Nat.pos_of_ne_zero h0) (by omega)
      rw [foldl_digit_append, ih (n / 10) (by omega) acc,
        digitChar_val (Nat.mod_lt _ (by omega))]
      simp only [List.length_append, List.length_cons, List.length_nil]
      have hdm := Nat.div_add_mod n 10
      rw [pow_succ]
      ring_nf
      omega

lemma natDigits_all_digit {n : Nat} : ∀ c ∈ natDigits n, c.isDigit = true := by
  unfold natDigits
  by_cases h0 : n = 0
  · rw [if_pos h0]
    intro c hc
    have : c = '0' := by simpa using hc
    subst this
    decide
  · rw [if_neg h0]
    exact natDigitsGo_all_digit _ _

lemma natDigits_ne_nil {n : Nat} : natDigits n ≠ [] := by
  unfold natDigits
  by_cases h0 : n = 0
  · simp [h0]
  · rw [if_neg h0, natDigitsGo, if_neg h0]
    simp

lemma digitsToNat_natDigits (n : Nat) : digitsToNat (natDigits n) = n := by
  unfold natDigits digitsToNat
  by_cases h0 : n = 0
  · subst h0; decide
  · rw [if_neg h0, natDigitsGo_val (n + 1) n (by omega) 0]
    simp

lemma leftPad_all_digit {w : Nat} {s : List Char} (h : ∀ c ∈ s, c.isDigit = true) :
    ∀ c ∈ leftPad '0' w s, c.isDigit = true := by
  intro c hc
  rcases List.mem_append.mp hc with h1 | h1
  · rw [(List.mem_replicate.mp h1).2]
    decide
  · exact h c h1

lemma leftPad_ne_nil {w : Nat} {s : List Char} (h : s ≠ []) : leftPad '0' w s ≠ [] := by
  unfold leftPad
  intro hcon
  exact h (List.append_eq_nil.mp hcon).2

lemma digitsToNat_leftPad (w : Nat) (s : List Char) :
    digitsToNat (leftPad '0' w s) = digitsToNat s := by
  unfold leftPad digitsToNat
  rw [List.foldl_append]
  congr 1
  induction (w - s.length) with
  | zero => rfl
  | succ k ih =>
    rw [List.replicate_succ, List.foldl_cons]
    simpa [digitVal] using ih

lemma pyFormatZ_ofNat (w : Nat) (v : Nat) :
    pyFormatZ w (Int.ofNat v) = leftPad '0' w (natDigits v) := by
  unfold pyFormatZ
  rw [if_neg (show ¬ (Int.ofNat v < 0) from Int.not_lt.mpr (Int.ofNat_nonneg v))]
  simp

lemma pyFormatZ_all_digit {w : Nat} {v : Nat} :
    ∀ c ∈ pyFormatZ w (Int.ofNat v), c.isDigit = true := by
  rw [pyFormatZ_ofNat]
  exact leftPad_all_digit natDigits_all_digit

lemma pyFormatZ_ne_nil {w : Nat} {v : Nat} : pyFormatZ w (Int.ofNat v) ≠ [] := by
  rw [pyFormatZ_ofNat]
  exact leftPad_ne_nil natDigits_ne_nil

lemma digitsToNat_pyFormatZ {w : Nat} {v : Nat} :
    digitsToNat (pyFormatZ w (Int.ofNat v)) = v := by
  rw [pyFormatZ_ofNat, digitsToNat_leftPad, digitsToNat_natDigits]

lemma okSeg_underscore : okSeg ['_'] := by decide

lemma okSeg_dash : okSeg ['-'] := by decide

example :
    resplit "a_timelapseID-20240808-111112_SPC-0001_TP-0002_ILL-0_CAM-0_CH-01_PL-0003-outOf-0150_blaBla.tif".data
    = ["a_".data, "20240808-111112_".data, "0001_".data, "0002_".data, "0_".data,
       "0_".data, "01_".data, "0003-".data, "0150_blaBla".data, "tif".data] := rfl

example :
    ImageFile.get_ImageFile_from_xOpenSPIM_filename "_channel01_position0002_time0003_view0_z0004.tif"
    = .ok { dataset_name := "", timelapse_id := "20240808-111112", specimen := 2,
            time_point := 3, illumination := 0, camera := 0, channel := 1, plane := 4,
            total_num_planes := 1, additional_info := "", extension := "tif" } := rfl

example :
    ImageFile.get_name
      { dataset_name := "", timelapse_id := "20240808-111112", specimen := 2,
        time_point := 3, illumination := 0, camera := 0, channel := 1, plane := 4,
        total_num_planes := 1, additional_info := "", extension := "tif" }
    = "timelapseID-20240808-111112_SPC-0002_TP-0003_ILL-0_CAM-0_CH-01_PL-0004-outOf-0001.tif" := rfl

/-! ## Decoding a grammar-valid canonical filename -/

lemma okSeg_nil : okSeg [] := by decide

lemma dropWhile_isDU_digits {s : List Char} (h : ∀ c ∈ s, c.isDigit = true) :
    s.dropWhile isDU = s :=
  dropWhile_eq_self_of_all (fun c hc => not_isDU_of_digit (h c hc))

lemma dropWhile_isDU_digits_rev {s : List Char} (h : ∀ c ∈ s, c.isDigit = true) :
    s.reverse.dropWhile isDU = s.reverse :=
  dropWhile_eq_self_of_all (fun c hc => not_isDU_of_digit (h c (List.mem_reverse.mp hc)))

lemma stripDU_digits_us {s : List Char} (h : ∀ c ∈ s, c.isDigit = true) :
    stripDU (s ++ ['_']) = s :=
  stripDU_append_du (by decide) (dropWhile_isDU_digits h) (dropWhile_isDU_digits_rev h)

lemma stripDU_digits_dash {s : List Char} (h : ∀ c ∈ s, c.isDigit = true) :
    stripDU (s ++ ['-']) = s :=
  stripDU_append_du (by decide) (dropWhile_isDU_digits h) (dropWhile_isDU_digits_rev h)

/-- Decoding a grammar-valid canonical filename succeeds and recovers every
field. -/
lemma mkImageFileCore_canonName
    {ds id s2 s3 s4 s5 s6 s7 s8 info ext : List Char}
    (hds : okSeg ds) (hdsf : ds.dropWhile isDU = ds)
    (hdsb : ds.reverse.dropWhile isDU = ds.reverse)
    (hid : okSeg id) (hidf : id.dropWhile isDU = id)
    (hidb : id.reverse.dropWhile isDU = id.reverse)
    (h2 : ∀ c ∈ s2, c.isDigit = true) (h2ne : s2 ≠ [])
    (h3 : ∀ c ∈ s3, c.isDigit = true) (h3ne : s3 ≠ [])
    (h4 : ∀ c ∈ s4, c.isDigit = true) (h4ne : s4 ≠ [])
    (h5 : ∀ c ∈ s5, c.isDigit = true) (h5ne : s5 ≠ [])
    (h6 : ∀ c ∈ s6, c.isDigit = true) (h6ne : s6 ≠ [])
    (h7 : ∀ c ∈ s7, c.isDigit = true) (h7ne : s7 ≠ [])
    (h8 : ∀ c ∈ s8, c.isDigit = true) (h8ne : s8 ≠ [])
    (hinfo : okSeg info) (hinfob : info.reverse.dropWhile isDU = info.reverse)
    (hext : okSeg ext) :
    mkImageFileCore (canonName ds id s2 s3 s4 s5 s6 s7 s8 info ext)
      = .ok { dataset_name := ⟨ds⟩, timelapse_id := ⟨id⟩,
              specimen := Int.ofNat (digitsToNat s2),
              time_point := Int.ofNat (digitsToNat s3),
              illumination := Int.ofNat (digitsToNat s4),
              camera := Int.ofNat (digitsToNat s5),
              channel := Int.ofNat (digitsToNat s6),
              plane := Int.ofNat (digitsToNat s7),
              total_num_planes := Int.ofNat (digitsToNat s8),
              additional_info := ⟨info⟩, extension := ⟨ext⟩ } := by
  have hr0 : okSeg (if ds = [] then [] else ds ++ ['_']) := by
    by_cases h : ds = []
    · rw [if_pos h]; exact okSeg_nil
    · rw [if_neg h]; exact okSeg_append hds okSeg_underscore
  have hr8 : okSeg (if info = [] then s8 else s8 ++ '_' :: info) := by
    by_cases h : info = []
    · rw [if_pos h]; exact okSeg_digits h8
    · rw [if_neg h]
      exact okSeg_append (okSeg_digits h8) (okSeg_append okSeg_underscore hinfo)
  have hsplit : resplit (canonName ds id s2 s3 s4 s5 s6 s7 s8 info ext)
      = [if ds = [] then [] else ds ++ ['_'], id ++ ['_'], s2 ++ ['_'], s3 ++ ['_'],
         s4 ++ ['_'], s5 ++ ['_'], s6 ++ ['_'], s7 ++ ['-'],
         if info = [] then s8 else s8 ++ '_' :: info, ext] := by
    unfold canonName
    exact resplit_canonRaw hr0 (okSeg_append hid okSeg_underscore)
      (okSeg_append (okSeg_digits h2) okSeg_underscore)
      (okSeg_append (okSeg_digits h3) okSeg_underscore)
      (okSeg_append (okSeg_digits h4) okSeg_underscore)
      (okSeg_append (okSeg_digits h5) okSeg_underscore)
      (okSeg_append (okSeg_digits h6) okSeg_underscore)
      (okSeg_append (okSeg_digits h7) okSeg_dash) hr8 hext
  have hstrip0 : stripDU (if ds = [] then [] else ds ++ ['_']) = ds := by
    by_cases h : ds = []
    · rw [if_pos h, h]; rfl
    · rw [if_neg h]; exact stripDU_append_du (by decide) hdsf hdsb
  have hstrip1 : stripDU (id ++ ['_']) = id := stripDU_append_du (by decide) hidf hidb
  have hparse8 : parse8 (stripDU (if info = [] then s8 else s8 ++ '_' :: info))
      = some (Int.ofNat (digitsToNat s8), info) := by
    by_cases h : info = []
    · rw [if_pos h, stripDU_digits h8]
      unfold parse8
      rw [splitOnce_no_us (fun c hc => beq_char_false (h8 c hc) (by decide))]
      show Option.map (fun t => (t, ([] : List Char))) (pyIntOf (stripDU s8))
          = some (Int.ofNat (digitsToNat s8), info)
      rw [stripDU_digits h8, pyIntOf_digits h8ne h8, h]
      rfl
    · rw [if_neg h, stripDU_mid h8 h8ne hinfob h]
      unfold parse8
      rw [splitOnce_mid (fun c hc => beq_char_false (h8 c hc) (by decide))]
      show Option.map (fun t => (t, info)) (pyIntOf (stripDU s8))
          = some (Int.ofNat (digitsToNat s8), info)
      rw [stripDU_digits h8, pyIntOf_digits h8ne h8]
      rfl
  have hfields : parseFields (if ds = [] then [] else ds ++ ['_']) (id ++ ['_'])
      (s2 ++ ['_']) (s3 ++ ['_']) (s4 ++ ['_']) (s5 ++ ['_']) (s6 ++ ['_']) (s7 ++ ['-'])
      (if info = [] then s8 else s8 ++ '_' :: info) ext
      = some { dataset_name := ⟨ds⟩, timelapse_id := ⟨id⟩,
               specimen := Int.ofNat (digitsToNat s2),
               time_point := Int.ofNat (digitsToNat s3),
               illumination := Int.ofNat (digitsToNat s4),
               camera := Int.ofNat (digitsToNat s5),
               channel := Int.ofNat (digitsToNat s6),
               plane := Int.ofNat (digitsToNat s7),
               total_num_planes := Int.ofNat (digitsToNat s8),
               additional_info := ⟨info⟩, extension := ⟨ext⟩ } := by
    unfold parseFields
    simp only [stripDU_digits_us h2, stripDU_digits_us h3, stripDU_digits_us h4,
      stripDU_digits_us h5, stripDU_digits_us h6, stripDU_digits_dash h7,
      pyIntOf_digits h2ne h2, pyIntOf_digits h3ne h3, pyIntOf_digits h4ne h4,
      pyIntOf_digits h5ne h5, pyIntOf_digits h6ne h6, pyIntOf_digits h7ne h7,
      hparse8, hstrip0, hstrip1, Option.some_bind]
  rw [mkImageFileCore.eq_def]
  simp only [hsplit, hfields]

/-- The characters of `get_name` form a canonical-grammar filename whose
numeric segments carry the canonical zero-padded formatting. -/
lemma get_name_data (ds id : List Char) (sp tp il ca ch pl tot : Int) (info ext : List Char) :
    (ImageFile.get_name ⟨⟨ds⟩, ⟨id⟩, sp, tp, il, ca, ch, pl, tot, ⟨info⟩, ⟨ext⟩⟩).data
      = canonName ds id (pyFormatZ 4 sp) (pyFormatZ 4 tp) (pyFormatZ 0 il) (pyFormatZ 0 ca)
          (pyFormatZ 2 ch) (pyFormatZ 4 pl) (pyFormatZ 4 tot) info ext := by
  have e0 : ("_" : String).data = ['_'] := rfl
  have e1 : ("_SPC-" : String).data = '_' :: "SPC-".data := rfl
  have e2 : ("_TP-" : String).data = '_' :: "TP-".data := rfl
  have e3 : ("_ILL-" : String).data = '_' :: "ILL-".data := rfl
  have e4 : ("_CAM-" : String).data = '_' :: "CAM-".data := rfl
  have e5 : ("_CH-" : String).data = '_' :: "CH-".data := rfl
  have e6 : ("_PL-" : String).data = '_' :: "PL-".data := rfl
  have e7 : ("-outOf-" : String).data = '-' :: "outOf-".data := rfl
  unfold ImageFile.get_name canonName canonRaw fmtZ tlD spcD tpD illD camD chD plD ooD dotD
  by_cases hds : ds = []
  · by_cases hinfo : info = []
    · subst hds hinfo
      simp [String.data_append, e0, e1, e2, e3, e4, e5, e6, e7, List.append_assoc]
    · subst hds
      rw [if_pos rfl, if_pos rfl,
        if_neg (show (⟨info⟩ : String) ≠ "" from fun h => hinfo (congrArg String.data h)),
        if_neg hinfo]
      simp [String.data_append, e0, e1, e2, e3, e4, e5, e6, e7, List.append_assoc]
  · by_cases hinfo : info = []
    · subst hinfo
      rw [if_neg (show (⟨ds⟩ : String) ≠ "" from fun h => hds (congrArg String.data h)),
        if_neg hds, if_pos rfl, if_pos rfl]
      simp [String.data_append, e0, e1, e2, e3, e4, e5, e6, e7, List.append_assoc]
    · rw [if_neg (show (⟨ds⟩ : String) ≠ "" from fun h => hds (congrArg String.data h)),
        if_neg hds,
        if_neg (show (⟨info⟩ : String) ≠ "" from fun h => hinfo (congrArg String.data h)),
        if_neg hinfo]
      simp [String.data_append, e0, e1, e2, e3, e4, e5, e6, e7, List.append_assoc]

/-- **C1**: round-trip of the canonical codec.  A syntactically valid
canonical filename — the grammar shape `canonName` with delimiter-safe
free-form fields (`okSeg`; the grammar is brittle to delimiter substrings
inside free-form fields), no strippable `-`/`_` at the edges of
`dataset_name`, `timelapse_id` and the end of `additional_info`, and
non-empty digit strings for the numeric fields — decodes via
`ImageFile.__init__` (`mkImageFile`) to the record of its field values;
re-encoding that record with `get_name` (the PLANE-mode encoder) yields an
equivalent filename: it decodes to the very same record (the same field
values), and when the numeric zero-padding of the source already has the
canonical widths the re-encoded name is byte-identical to the input.
(The extension is stored and re-emitted verbatim, so no extension-case
exception is even needed.) -/
theorem C1_canonical_roundtrip
    (ds id s2 s3 s4 s5 s6 s7 s8 info ext : List Char)
    (hds : okSeg ds) (hdsf : ds.dropWhile isDU = ds)
    (hdsb : ds.reverse.dropWhile isDU = ds.reverse)
    (hid : okSeg id) (hidf : id.dropWhile isDU = id)
    (hidb : id.reverse.dropWhile isDU = id.reverse)
    (h2 : ∀ c ∈ s2, c.isDigit = true) (h2ne : s2 ≠ [])
    (h3 : ∀ c ∈ s3, c.isDigit = true) (h3ne : s3 ≠ [])
    (h4 : ∀ c ∈ s4, c.isDigit = true) (h4ne : s4 ≠ [])
    (h5 : ∀ c ∈ s5, c.isDigit = true) (h5ne : s5 ≠ [])
    (h6 : ∀ c ∈ s6, c.isDigit = true) (h6ne : s6 ≠ [])
    (h7 : ∀ c ∈ s7, c.isDigit = true) (h7ne : s7 ≠ [])
    (h8 : ∀ c ∈ s8, c.isDigit = true) (h8ne : s8 ≠ [])
    (hinfo : okSeg info) (hinfob : info.reverse.dropWhile isDU = info.reverse)
    (hext : okSeg ext) :
    ∃ r : ImageFile,
      mkImageFile ⟨canonName ds id s2 s3 s4 s5 s6 s7 s8 info ext⟩ = .ok r
      ∧ r = ⟨⟨ds⟩, ⟨id⟩, Int.ofNat (digitsToNat s2), Int.ofNat (digitsToNat s3),
             Int.ofNat (digitsToNat s4), Int.ofNat (digitsToNat s5),
             Int.ofNat (digitsToNat s6), Int.ofNat (digitsToNat s7),
             Int.ofNat (digitsToNat s8), ⟨info⟩, ⟨ext⟩⟩
      ∧ mkImageFile r.get_name = .ok r
      ∧ (s2 = pyFormatZ 4 (Int.ofNat (digitsToNat s2)) →
         s3 = pyFormatZ 4 (Int.ofNat (digitsToNat s3)) →
         s4 = pyFormatZ 0 (Int.ofNat (digitsToNat s4)) →
         s5 = pyFormatZ 0 (Int.ofNat (digitsToNat s5)) →
         s6 = pyFormatZ 2 (Int.ofNat (digitsToNat s6)) →
         s7 = pyFormatZ 4 (Int.ofNat (digitsToNat s7)) →
         s8 = pyFormatZ 4 (Int.ofNat (digitsToNat s8)) →
         r.get_name = ⟨canonName ds id s2 s3 s4 s5 s6 s7 s8 info ext⟩) := by
  refine ⟨_, mkImageFileCore_canonName hds hdsf hdsb hid hidf hidb h2 h2ne h3 h3ne h4 h4ne
    h5 h5ne h6 h6ne h7 h7ne h8 h8ne hinfo hinfob hext, rfl, ?_, ?_⟩
  · show mkImageFileCore (ImageFile.get_name _).data = _
    rw [get_name_data]
    have hdec := mkImageFileCore_canonName hds hdsf hdsb hid hidf hidb
      (@pyFormatZ_all_digit 4 (digitsToNat s2)) (@pyFormatZ_ne_nil 4 (digitsToNat s2))
      (@pyFormatZ_all_digit 4 (digitsToNat s3)) (@pyFormatZ_ne_nil 4 (digitsToNat s3))
      (@pyFormatZ_all_digit 0 (digitsToNat s4)) (@pyFormatZ_ne_nil 0 (digitsToNat s4))
      (@pyFormatZ_all_digit 0 (digitsToNat s5)) (@pyFormatZ_ne_nil 0 (digitsToNat s5))
      (@pyFormatZ_all_digit 2 (digitsToNat s6)) (@pyFormatZ_ne_nil 2 (digitsToNat s6))
      (@pyFormatZ_all_digit 4 (digitsToNat s7)) (@pyFormatZ_ne_nil 4 (digitsToNat s7))
      (@pyFormatZ_all_digit 4 (digitsToNat s8)) (@pyFormatZ_ne_nil 4 (digitsToNat s8))
      hinfo hinfob hext
    simp only [digitsToNat_pyFormatZ] at hdec
    exact hdec
  · intro w2 w3 w4 w5 w6 w7 w8
    have hd := get_name_data ds id (Int.ofNat (digitsToNat s2)) (Int.ofNat (digitsToNat s3))
      (Int.ofNat (digitsToNat s4)) (Int.ofNat (digitsToNat s5)) (Int.ofNat (digitsToNat s6))
      (Int.ofNat (digitsToNat s7)) (Int.ofNat (digitsToNat s8)) info ext
    rw [← w2, ← w3, ← w4, ← w5, ← w6, ← w7, ← w8] at hd
    calc ImageFile.get_name _ = ⟨(ImageFile.get_name _).data⟩ := rfl
      _ = ⟨canonName ds id s2 s3 s4 s5 s6 s7 s8 info ext⟩ := by rw [hd]

theorem C1_canonical_roundtrip_witness :
    ∃ r : ImageFile,
      mkImageFile
        "exp1_timelapseID-20240808-111112_SPC-0001_TP-0002_ILL-0_CAM-0_CH-01_PL-0003-outOf-0150_blaBla.tif"
        = .ok r
      ∧ mkImageFile r.get_name = .ok r := by
  obtain ⟨r, h1, _h2, h3, _h4⟩ := C1_canonical_roundtrip "exp1".data "20240808-111112".data
    "0001".data "0002".data "0".data "0".data "01".data "0003".data "0150".data
    "blaBla".data "tif".data (by decide) (by decide) (by decide) (by decide) (by decide)
    (by decide) (by decide) (by decide) (by decide) (by decide) (by decide) (by decide)
    (by decide) (by decide) (by decide) (by decide) (by decide) (by decide) (by decide)
    (by decide) (by decide) (by decide) (by decide)
  exact ⟨r, h1, h3⟩

/-! ## Inversion and evaluation of the ingest matcher -/

lemma expectLit_some {lit s r : List Char} (h : expectLit lit s = some r) : s = lit ++ r := by
  unfold expectLit at h
  by_cases hp : lit <+: s
  · rw [if_pos hp] at h
    obtain ⟨t, ht⟩ := hp
    subst ht
    rw [List.drop_left] at h
    cases h
    rfl
  · rw [if_neg hp] at h
    cases h

lemma expectLit_self (lit r : List Char) : expectLit lit (lit ++ r) = some r := by
  unfold expectLit
  rw [if_pos (List.prefix_append lit r), List.drop_left]

lemma takeDigits_some {s d r : List Char} (h : takeDigits s = some (d, r)) :
    s = d ++ r ∧ d ≠ [] ∧ ∀ c ∈ d, c.isDigit = true := by
  unfold takeDigits at h
  cases htw : s.takeWhile Char.isDigit with
  | nil => rw [htw] at h; cases h
  | cons c t =>
    rw [htw] at h
    have hdr : c :: t = d ∧ s.dropWhile Char.isDigit = r := by
      simpa using h
    obtain ⟨hd, hr⟩ := hdr
    subst hd
    subst hr
    refine ⟨?_, by simp, ?_⟩
    · rw [← htw]
      exact (List.takeWhile_append_dropWhile Char.isDigit s).symm
    · intro x hx
      exact List.mem_takeWhile_imp (show x ∈ s.takeWhile Char.isDigit by rw [htw]; exact hx)

lemma takeWhile_append_all {p : Char → Bool} {g : List Char} (hg : ∀ c ∈ g, p c = true)
    {c : Char} (hc : p c = false) (r : List Char) :
    (g ++ c :: r).takeWhile p = g ∧ (g ++ c :: r).dropWhile p = c :: r := by
  induction g with
  | nil => simp [List.takeWhile_cons, List.dropWhile_cons, hc]
  | cons a g' ih =>
    have ha := hg a (List.mem_cons_self a g')
    have ih' := ih (fun x hx => hg x (List.mem_cons_of_mem _ hx))
    simp [List.takeWhile_cons, List.dropWhile_cons, ha, ih'.1, ih'.2]

lemma takeDigits_build {g : List Char} (hg : ∀ c ∈ g, c.isDigit = true) (hne : g ≠ [])
    {c : Char} (hc : c.isDigit = false) (r : List Char) :
    takeDigits (g ++ c :: r) = some (g, c :: r) := by
  unfold takeDigits
  obtain ⟨a, g', rfl⟩ := List.exists_cons_of_ne_nil hne
  have ht := takeWhile_append_all hg hc r
  simp only [ht.1, ht.2]

lemma takeWhile_ne_nil_append {p : Char → Bool} {s : List Char}
    (h : s.takeWhile p ≠ []) (j : List Char) : (s ++ j).takeWhile p ≠ [] := by
  cases s with
  | nil => simp at h
  | cons c t =>
    rw [List.takeWhile_cons] at h
    by_cases hc : p c = true
    · rw [List.cons_append, List.takeWhile_cons, if_pos hc]
      simp
    · rw [if_neg hc] at h
      simp at h

/-- Full inversion of a successful ingest match: the numeric groups are
non-empty digit strings, the word group is non-empty, and the match is
insensitive to appending arbitrary trailing characters (only the final `\w+`
group can change). -/
lemma ingestMatch_spec {s g1 g2 g3 g4 g5 g6 : List Char}
    (h : ingestMatch s = some (g1, g2, g3, g4, g5, g6)) :
    ((∀ c ∈ g1, c.isDigit = true) ∧ g1 ≠ []) ∧
    ((∀ c ∈ g2, c.isDigit = true) ∧ g2 ≠ []) ∧
    ((∀ c ∈ g3, c.isDigit = true) ∧ g3 ≠ []) ∧
    ((∀ c ∈ g4, c.isDigit = true) ∧ g4 ≠ []) ∧
    ((∀ c ∈ g5, c.isDigit = true) ∧ g5 ≠ []) ∧
    g6 ≠ [] ∧
    ∀ j : List Char, ∃ g6' : List Char, g6' ≠ [] ∧
      ingestMatch (s ++ j) = some (g1, g2, g3, g4, g5, g6') := by
  unfold ingestMatch at h
  split at h
  · exact Option.noConfusion h
  rename_i s1 e1
  split at h
  · exact Option.noConfusion h
  rename_i g1x s2 e2
  split at h
  · exact Option.noConfusion h
  rename_i s3 e3
  split at h
  · exact Option.noConfusion h
  rename_i g2x s4 e4
  split at h
  · exact Option.noConfusion h
  rename_i s5 e5
  split at h
  · exact Option.noConfusion h
  rename_i g3x s6 e6
  split at h
  · exact Option.noConfusion h
  rename_i s7 e7
  split at h
  · exact Option.noConfusion h
  rename_i g4x s8 e8
  split at h
  · exact Option.noConfusion h
  rename_i s9 e9
  split at h
  · exact Option.noConfusion h
  rename_i g5x s10 e10
  split at h
  · exact Option.noConfusion h
  rename_i s11 e11
  split at h
  · exact Option.noConfusion h
  rename_i g6x hnil
  have hq : g1x = g1 ∧ g2x = g2 ∧ g3x = g3 ∧ g4x = g4 ∧ g5x = g5
      ∧ s11.takeWhile isWordChar = g6 := by
    simpa using h
  obtain ⟨rfl, rfl, rfl, rfl, rfl, hq6⟩ := hq
  have d1 := takeDigits_some e2
  have d2 := takeDigits_some e4
  have d3 := takeDigits_some e6
  have d4 := takeDigits_some e8
  have d5 := takeDigits_some e10
  have hs0 : s = "_channel".data ++ s1 := expectLit_some e1
  have hs2 : s2 = "_position".data ++ s3 := expectLit_some e3
  have hs4 : s4 = "_time".data ++ s5 := expectLit_some e5
  have hs6 : s6 = "_view".data ++ s7 := expectLit_some e7
  have hs8 : s8 = "_z".data ++ s9 := expectLit_some e9
  have hs10 : s10 = ".".data ++ s11 := expectLit_some e11
  refine ⟨⟨d1.2.2, d1.2.1⟩, ⟨d2.2.2, d2.2.1⟩, ⟨d3.2.2, d3.2.1⟩, ⟨d4.2.2, d4.2.1⟩,
    ⟨d5.2.2, d5.2.1⟩, fun he => hnil (hq6.trans he), ?_⟩
  intro j
  have E1 : expectLit "_channel".data (s ++ j) = some (s1 ++ j) := by
    rw [hs0, List.append_assoc]
    exact expectLit_self _ _
  have E2 : takeDigits (s1 ++ j) = some (g1x, s2 ++ j) := by
    rw [d1.1, List.append_assoc, hs2, List.append_assoc]
    rw [show ("_position".data : List Char) ++ (s3 ++ j)
        = '_' :: ("position".data ++ (s3 ++ j)) from rfl]
    exact takeDigits_build d1.2.2 d1.2.1 (show ('_' : Char).isDigit = false by decide) _
  have E3 : expectLit "_position".data (s2 ++ j) = some (s3 ++ j) := by
    rw [hs2, List.append_assoc]
    exact expectLit_self _ _
  have E4 : takeDigits (s3 ++ j) = some (g2x, s4 ++ j) := by
    rw [d2.1, List.append_assoc, hs4, List.append_assoc]
    rw [show ("_time".data : List Char) ++ (s5 ++ j)
        = '_' :: ("time".data ++ (s5 ++ j)) from rfl]
    exact takeDigits_build d2.2.2 d2.2.1 (show ('_' : Char).isDigit = false by decide) _
  have E5 : expectLit "_time".data (s4 ++ j) = some (s5 ++ j) := by
    rw [hs4, List.append_assoc]
    exact expectLit_self _ _
  have E6 : takeDigits (s5 ++ j) = some (g3x, s6 ++ j) := by
    rw [d3.1, List.append_assoc, hs6, List.append_assoc]
    rw [show ("_view".data : List Char) ++ (s7 ++ j)
        = '_' :: ("view".data ++ (s7 ++ j)) from rfl]
    exact takeDigits_build d3.2.2 d3.2.1 (show ('_' : Char).isDigit = false by decide) _
  have E7 : expectLit "_view".data (s6 ++ j) = some (s7 ++ j) := by
    rw [hs6, List.append_assoc]
    exact expectLit_self _ _
  have E8 : takeDigits (s7 ++ j) = some (g4x, s8 ++ j) := by
    rw [d4.1, List.append_assoc, hs8, List.append_assoc]
    rw [show ("_z".data : List Char) ++ (s9 ++ j)
        = '_' :: ("z".data ++ (s9 ++ j)) from rfl]
    exact takeDigits_build d4.2.2 d4.2.1 (show ('_' : Char).isDigit = false by decide) _
  have E9 : expectLit "_z".data (s8 ++ j) = some (s9 ++ j) := by
    rw [hs8, List.append_assoc]
    exact expectLit_self _ _
  have E10 : takeDigits (s9 ++ j) = some (g5x, s10 ++ j) := by
    rw [d5.1, List.append_assoc, hs10, List.append_assoc]
    rw [show (".".data : List Char) ++ (s11 ++ j) = '.' :: (s11 ++ j) from rfl]
    exact takeDigits_build d5.2.2 d5.2.1 (show ('.' : Char).isDigit = false by decide) _
  have E11 : expectLit ".".data (s10 ++ j) = some (s11 ++ j) := by
    rw [hs10, List.append_assoc]
    exact expectLit_self _ _
  have hw : (s11 ++ j).takeWhile isWordChar ≠ [] :=
    takeWhile_ne_nil_append (fun hcon => hnil hcon) j
  obtain ⟨cw, tw, hct⟩ := List.exists_cons_of_ne_nil hw
  refine ⟨cw :: tw, by simp, ?_⟩
  unfold ingestMatch
  simp only [E1, E2, E3, E4, E5, E6, E7, E8, E9, E10, E11, hct]

/-! ## Evaluation of the two decoders -/

lemma optionBindConstNone {α β : Type} (x : Option α) :
    (x.bind fun _ => (none : Option β)) = none := by
  cases x <;> rfl

/-- The ingest decoder on a successful match: every field of the record. -/
lemma ingest_decode_eq {s : String} {g1 g2 g3 g4 g5 g6 : List Char}
    (h : ingestMatch s.data = some (g1, g2, g3, g4, g5, g6)) :
    ImageFile.get_ImageFile_from_xOpenSPIM_filename s
      = .ok ⟨"", "20240808-111112", Int.ofNat (digitsToNat g2), Int.ofNat (digitsToNat g3),
             0, 0, Int.ofNat (digitsToNat g1), Int.ofNat (digitsToNat g5), 1, "", ⟨g6⟩⟩ := by
  have hs := ingestMatch_spec h
  unfold ImageFile.get_ImageFile_from_xOpenSPIM_filename
  simp only [h, pyIntOf_digits hs.1.2 hs.1.1, pyIntOf_digits hs.2.1.2 hs.2.1.1,
    pyIntOf_digits hs.2.2.1.2 hs.2.2.1.1, pyIntOf_digits hs.2.2.2.2.1.2 hs.2.2.2.2.1.1]

/-- The ingest decoder on a failed match. -/
lemma ingest_decode_err {s : String} (h : ingestMatch s.data = none) :
    ImageFile.get_ImageFile_from_xOpenSPIM_filename s = .error ⟨xOpenSPIMErrMsg⟩ := by
  unfold ImageFile.get_ImageFile_from_xOpenSPIM_filename
  rw [h]

/-- A filename that does not begin with the literal `_channel` never matches
the (start-anchored) ingest pattern. -/
lemma ingest_reject_of_no_channel {s : String} (h : ¬ ("_channel".data <+: s.data)) :
    ImageFile.get_ImageFile_from_xOpenSPIM_filename s = .error ⟨xOpenSPIMErrMsg⟩ := by
  apply ingest_decode_err
  unfold ingestMatch
  rw [show expectLit "_channel".data s.data = none from by unfold expectLit; rw [if_neg h]]

/-- A successful ingest decode comes from a successful match. -/
lemma ingest_decode_ok_inv {s : String} {r : ImageFile}
    (h : ImageFile.get_ImageFile_from_xOpenSPIM_filename s = .ok r) :
    ∃ g1 g2 g3 g4 g5 g6, ingestMatch s.data = some (g1, g2, g3, g4, g5, g6) := by
  unfold ImageFile.get_ImageFile_from_xOpenSPIM_filename at h
  split at h
  · rename_i g1 g2 g3 g4 g5 g6 heq
    exact ⟨g1, g2, g3, g4, g5, g6, heq⟩
  · exact Except.noConfusion h

/-- Canonical decode with a wrong segment count fails with the first error. -/
lemma mkImageFileCore_err_len {f : List Char} (h : (resplit f).length ≠ 10) :
    mkImageFileCore f = .error ⟨segmentErrMsg⟩ := by
  rw [mkImageFileCore.eq_def]
  split
  · rename_i p0 p1 p2 p3 p4 p5 p6 p7 p8 p9 heq
    exfalso
    apply h
    rw [heq]
    rfl
  · rfl

/-- Canonical decode with 10 segments but an unparseable numeric field fails
with the `ValueError` error. -/
lemma mkImageFileCore_err_field {f : List Char} {p0 p1 p2 p3 p4 p5 p6 p7 p8 p9 : List Char}
    (hr : resplit f = [p0, p1, p2, p3, p4, p5, p6, p7, p8, p9])
    (hfail : pyIntOf (stripDU p2) = none ∨ pyIntOf (stripDU p3) = none ∨
             pyIntOf (stripDU p4) = none ∨ pyIntOf (stripDU p5) = none ∨
             pyIntOf (stripDU p6) = none ∨ pyIntOf (stripDU p7) = none ∨
             parse8 (stripDU p8) = none) :
    mkImageFileCore f = .error ⟨valueErrMsg⟩ := by
  have hnone : parseFields p0 p1 p2 p3 p4 p5 p6 p7 p8 p9 = none := by
    unfold parseFields
    rcases hfail with h | h | h | h | h | h | h <;>
      simp [h, optionBindConstNone]
  rw [mkImageFileCore.eq_def, hr]
  simp [hnone]

/-- The extension stored by a successful field parse is segment 9 verbatim. -/
lemma parseFields_ext {p0 p1 p2 p3 p4 p5 p6 p7 p8 p9 : List Char} {r : ImageFile}
    (h : parseFields p0 p1 p2 p3 p4 p5 p6 p7 p8 p9 = some r) : r.extension = ⟨p9⟩ := by
  unfold parseFields at h
  simp only [Option.bind_eq_some] at h
  obtain ⟨sp, hsp, tp, htp, il, hil, ca, hca, ch, hch, pl, hpl, ti, hti, hfin⟩ := h
  cases hfin
  rfl

/-- A successful canonical decode has exactly 10 segments and stores the last
one verbatim as the extension. -/
lemma mkImageFileCore_ok_inv {f : List Char} {r : ImageFile}
    (h : mkImageFileCore f = .ok r) :
    ∃ p0 p1 p2 p3 p4 p5 p6 p7 p8 p9,
      resplit f = [p0, p1, p2, p3, p4, p5, p6, p7, p8, p9] ∧ r.extension = ⟨p9⟩ := by
  rw [mkImageFileCore.eq_def] at h
  split at h
  · rename_i p0 p1 p2 p3 p4 p5 p6 p7 p8 p9 heq
    split at h
    · rename_i rx hx
      cases h
      exact ⟨p0, p1, p2, p3, p4, p5, p6, p7, p8, p9, heq, parseFields_ext hx⟩
    · exact Except.noConfusion h
  · exact Except.noConfusion h

/-! ## A dot inside a free-form field -/

lemma dotted_assoc (a b T : List Char) :
    ((a ++ '.' :: b) ++ ['_']) ++ T = a ++ (dotD ++ ((b ++ ['_']) ++ T)) := by
  simp [dotD, List.append_assoc]

/-- A canonical filename whose `dataset_name` carries one extra dot splits
into eleven segments: the `\.` alternative matches every dot. -/
lemma resplit_canonName_dotted {a b id s2 s3 s4 s5 s6 s7 s8 info ext : List Char}
    (ha : okSeg a) (hb : okSeg b) (hid : okSeg id) (h2 : okSeg s2) (h3 : okSeg s3)
    (h4 : okSeg s4) (h5 : okSeg s5) (h6 : okSeg s6) (h7 : okSeg s7) (h8 : okSeg s8)
    (hinfo : okSeg info) (hext : okSeg ext) :
    resplit (canonName (a ++ '.' :: b) id s2 s3 s4 s5 s6 s7 s8 info ext)
      = [a, b ++ ['_'], id ++ ['_'], s2 ++ ['_'], s3 ++ ['_'], s4 ++ ['_'], s5 ++ ['_'],
         s6 ++ ['_'], s7 ++ ['-'], if info = [] then s8 else s8 ++ '_' :: info, ext] := by
  have h8seg : okSeg (if info = [] then s8 else s8 ++ '_' :: info) := by
    by_cases h : info = []
    · rw [if_pos h]; exact h8
    · rw [if_neg h]; exact okSeg_append h8 (okSeg_append okSeg_underscore hinfo)
  unfold canonName canonRaw
  rw [if_neg (show ¬ (a ++ '.' :: b = []) by simp)]
  rw [dotted_assoc]
  rw [resplit_step_dot ha, resplit_step_tl (okSeg_append hb okSeg_underscore),
    resplit_step_spc (okSeg_append hid okSeg_underscore),
    resplit_step_tp (okSeg_append h2 okSeg_underscore),
    resplit_step_ill (okSeg_append h3 okSeg_underscore),
    resplit_step_cam (okSeg_append h4 okSeg_underscore),
    resplit_step_ch (okSeg_append h5 okSeg_underscore),
    resplit_step_pl (okSeg_append h6 okSeg_underscore),
    resplit_step_oo (okSeg_append h7 okSeg_dash),
    resplit_step_dot h8seg, resplit_whole hext]

/-! ## The reconcile scan, unfolded -/

lemma scan_foldl (out : String) : ∀ (l : List String) (ev : List ScanEvent) (st : List String),
    (l.foldl (fun acc f =>
        (acc.1 ++ [ScanEvent.invoked f (FileEventHandler.process out f), ScanEvent.inserted f],
         acc.2 ++ [f])) (ev, st))
      = (ev ++ processLog out l, st ++ l) := by
  intro l
  induction l with
  | nil => intro ev st; simp [processLog]
  | cons f t ih =>
    intro ev st
    rw [List.foldl_cons, ih]
    simp [processLog, List.append_assoc]

/-- `scan_directory`, in closed form: the sorted worklist is interleaved as
invoke-then-insert, and exactly the worklist is appended to the set. -/
lemma scan_directory_eq (out folder : String) (listing : List String)
    (isfile : String → Bool) (mtime : String → Int) (processed : List String) :
    scan_directory out folder listing isfile mtime processed
      = (processLog out (((listing.map (joinPath folder)).filter
            (fun p => isfile p && !(processed.contains p))).insertionSort
            (fun a b => mtime a ≤ mtime b)),
         processed ++ ((listing.map (joinPath folder)).filter
            (fun p => isfile p && !(processed.contains p))).insertionSort
            (fun a b => mtime a ≤ mtime b)) := by
  unfold scan_directory
  rw [scan_foldl]
  simp

/-! ## The claims -/

/-- **C2**: end-to-end renaming of the documented example: decoding the
ingest-format filename with `get_ImageFile_from_xOpenSPIM_filename` and
encoding the record in PLANE mode with `get_name` yields exactly the
documented output basename, which `FileEventHandler.process` joins with the
destination directory as the copy target. -/
theorem C2_end_to_end :
    ImageFile.get_ImageFile_from_xOpenSPIM_filename
        "_channel01_position0002_time0003_view0_z0004.tif"
      = .ok ⟨"", "20240808-111112", 2, 3, 0, 0, 1, 4, 1, "", "tif"⟩
    ∧ ImageFile.get_name ⟨"", "20240808-111112", 2, 3, 0, 0, 1, 4, 1, "", "tif"⟩
      = "timelapseID-20240808-111112_SPC-0002_TP-0003_ILL-0_CAM-0_CH-01_PL-0004-outOf-0001.tif"
    ∧ ∀ output_folder : String,
        FileEventHandler.process output_folder "_channel01_position0002_time0003_view0_z0004.tif"
          = .copied "_channel01_position0002_time0003_view0_z0004.tif"
              (joinPath output_folder
                "timelapseID-20240808-111112_SPC-0002_TP-0003_ILL-0_CAM-0_CH-01_PL-0004-outOf-0001.tif") :=
  ⟨rfl, rfl, fun _ => rfl⟩

/-- **C3**: rejection with a typed failure.  A filename whose canonical split
does not have exactly 10 segments fails `ImageFile.__init__` with the
segment-count `NotImagePlaneFile`; one with 10 segments but an unparseable
numeric field fails with the `ValueError`-branch `NotImagePlaneFile`; a
filename not matching the ingest pattern fails the ingest decoder with its
`NotImagePlaneFile`.  In each case the result is `Except.error`, so no
`ImageFile` record is produced. -/
theorem C3_rejection :
    (∀ f : String, (resplit f.data).length ≠ 10 → mkImageFile f = .error ⟨segmentErrMsg⟩)
    ∧ (∀ (f : String) (p0 p1 p2 p3 p4 p5 p6 p7 p8 p9 : List Char),
        resplit f.data = [p0, p1, p2, p3, p4, p5, p6, p7, p8, p9] →
        (pyIntOf (stripDU p2) = none ∨ pyIntOf (stripDU p3) = none ∨
         pyIntOf (stripDU p4) = none ∨ pyIntOf (stripDU p5) = none ∨
         pyIntOf (stripDU p6) = none ∨ pyIntOf (stripDU p7) = none ∨
         parse8 (stripDU p8) = none) →
        mkImageFile f = .error ⟨valueErrMsg⟩)
    ∧ (∀ f : String, ingestMatch f.data = none →
        ImageFile.get_ImageFile_from_xOpenSPIM_filename f = .error ⟨xOpenSPIMErrMsg⟩) :=
  ⟨fun _ h => mkImageFileCore_err_len h,
   fun _ _ _ _ _ _ _ _ _ _ _ hr hf => mkImageFileCore_err_field hr hf,
   fun _ h => ingest_decode_err h⟩

theorem C3_rejection_witness :
    mkImageFile "abc.tif" = .error ⟨segmentErrMsg⟩
    ∧ mkImageFile "timelapseID-a_SPC-b_TP-1_ILL-1_CAM-1_CH-1_PL-1-outOf-1.tif"
        = .error ⟨valueErrMsg⟩
    ∧ ImageFile.get_ImageFile_from_xOpenSPIM_filename "randomfile.tif"
        = .error ⟨xOpenSPIMErrMsg⟩ :=
  ⟨C3_rejection.1 "abc.tif" (by decide),
   C3_rejection.2.1 "timelapseID-a_SPC-b_TP-1_ILL-1_CAM-1_CH-1_PL-1-outOf-1.tif"
     "".data "a_".data "b_".data "1_".data "1_".data "1_".data "1_".data "1-".data
     "1".data "tif".data (by decide) (Or.inl (by decide)),
   C3_rejection.2.2 "randomfile.tif" rfl⟩

/-- **C5**: ingest-grammar field mapping.  For a filename matching the ingest
pattern, the decoded record takes `channel`, `specimen` (from the "position"
group), `time_point`, `plane` (digits after `z`) and `extension` from the
captured groups; `camera = 0`, `illumination = 0`, `total_num_planes = 1`,
`additional_info` and `dataset_name` empty, `timelapse_id` the fixed
placeholder — and the record does not depend on the captured view group `g4`
at all (it appears nowhere in the right-hand side). -/
theorem C5_ingest_field_mapping (s : String) (g1 g2 g3 g4 g5 g6 : List Char)
    (h : ingestMatch s.data = some (g1, g2, g3, g4, g5, g6)) :
    ImageFile.get_ImageFile_from_xOpenSPIM_filename s
      = .ok { dataset_name := "", timelapse_id := "20240808-111112",
              specimen := Int.ofNat (digitsToNat g2),
              time_point := Int.ofNat (digitsToNat g3),
              illumination := 0, camera := 0,
              channel := Int.ofNat (digitsToNat g1),
              plane := Int.ofNat (digitsToNat g5), total_num_planes := 1,
              additional_info := "", extension := ⟨g6⟩ } :=
  ingest_decode_eq h

theorem C5_ingest_field_mapping_witness :
    ImageFile.get_ImageFile_from_xOpenSPIM_filename
        "_channel01_position0002_time0003_view7_z0004.tif"
      = .ok ⟨"", "20240808-111112", 2, 3, 0, 0, 1, 4, 1, "", "tif"⟩ :=
  C5_ingest_field_mapping "_channel01_position0002_time0003_view7_z0004.tif"
    "01".data "0002".data "0003".data "7".data "0004".data "tif".data rfl

/-- **C7 counterexample**: the split delimiter `\.` matches every dot, not
only the last one: a filename that is canonical except for one extra dot in
`dataset_name` does **not** split into 10 segments — it splits into 11 and is
rejected. -/
theorem C7_counterexample :
    (resplit "my.data_timelapseID-x_SPC-0001_TP-0001_ILL-0_CAM-0_CH-01_PL-0001-outOf-0150.tif".data).length ≠ 10
    ∧ mkImageFile "my.data_timelapseID-x_SPC-0001_TP-0001_ILL-0_CAM-0_CH-01_PL-0001-outOf-0150.tif"
        = .error ⟨segmentErrMsg⟩ :=
  ⟨by decide, rfl⟩

/-- **C7 (amended)**: in canonical decoding every dot of the filename is a
split point (the `\.` alternative is not anchored to the last dot), so a
filename of the canonical grammar whose `dataset_name` contains one
additional dot splits into 11 segments and decoding fails with the
segment-count `NotImagePlaneFile`; the extension is the remainder after the
last dot only when the rest of the name contains no other dot. -/
theorem C7_every_dot_splits (a b id s2 s3 s4 s5 s6 s7 s8 info ext : List Char)
    (ha : okSeg a) (hb : okSeg b) (hid : okSeg id) (h2 : okSeg s2) (h3 : okSeg s3)
    (h4 : okSeg s4) (h5 : okSeg s5) (h6 : okSeg s6) (h7 : okSeg s7) (h8 : okSeg s8)
    (hinfo : okSeg info) (hext : okSeg ext) :
    (resplit (canonName (a ++ '.' :: b) id s2 s3 s4 s5 s6 s7 s8 info ext)).length = 11
    ∧ mkImageFile ⟨canonName (a ++ '.' :: b) id s2 s3 s4 s5 s6 s7 s8 info ext⟩
        = .error ⟨segmentErrMsg⟩ := by
  have hs := resplit_canonName_dotted ha hb hid h2 h3 h4 h5 h6 h7 h8 hinfo hext
  refine ⟨by rw [hs]; rfl, ?_⟩
  show mkImageFileCore (canonName (a ++ '.' :: b) id s2 s3 s4 s5 s6 s7 s8 info ext) = _
  apply mkImageFileCore_err_len
  rw [hs]
  simp

theorem C7_every_dot_splits_witness :
    (resplit (canonName ("my".data ++ '.' :: "data".data) "x".data "0001".data "0001".data
        "0".data "0".data "01".data "0001".data "0150".data [] "tif".data)).length = 11
    ∧ mkImageFile ⟨canonName ("my".data ++ '.' :: "data".data) "x".data "0001".data
        "0001".data "0".data "0".data "01".data "0001".data "0150".data [] "tif".data⟩
        = .error ⟨segmentErrMsg⟩ :=
  C7_every_dot_splits "my".data "data".data "x".data "0001".data "0001".data "0".data
    "0".data "01".data "0001".data "0150".data [] "tif".data (by decide) (by decide)
    (by decide) (by decide) (by decide) (by decide) (by decide) (by decide) (by decide)
    (by decide) (by decide) (by decide)

lemma data_dot_ext (x y : String) : (x ++ "." ++ y).data = x.data ++ '.' :: y.data := by
  simp [String.data_append]

/-- **C4 counterexample**: a path observed by both triggers is processed
twice, refuting "the monitor effectively processes that path at most once":
the event trigger (`on_created`) processes it but records nothing, and the
next reconcile tick, not finding it in `processed_files`, processes it
again. -/
theorem C4_counterexample :
    countInvocations "f.tif"
        ((reconcile_tick "out" "" ["f.tif"] (fun _ => true) (fun _ => 0)
          (on_created "out" ⟨[], []⟩ "f.tif")).log) = 2
    ∧ ¬ (countInvocations "f.tif"
        ((reconcile_tick "out" "" ["f.tif"] (fun _ => true) (fun _ => 0)
          (on_created "out" ⟨[], []⟩ "f.tif")).log) ≤ 1) := by
  constructor
  · decide
  · decide

/-- **C4 (amended)**: the monitor guarantees at-least-once, not at-most-once,
processing per path: `on_created` never inserts into `processed_files` (only
the reconcile scan does), so a path handled by the event trigger and then
seen by a reconcile tick while still absent from `processed_files` is
processed exactly once by each trigger — twice in total. -/
theorem C4_at_least_once (out folder p : String) (isfile : String → Bool)
    (mtime : String → Int) (st : MonitorState)
    (hf : isfile (joinPath folder p) = true)
    (hnp : joinPath folder p ∉ st.processed_files) :
    (on_created out st (joinPath folder p)).processed_files = st.processed_files
    ∧ countInvocations (joinPath folder p)
        ((reconcile_tick out folder [p] isfile mtime
          (on_created out st (joinPath folder p))).log)
      = countInvocations (joinPath folder p) st.log + 2 := by
  refine ⟨rfl, ?_⟩
  have hc : st.processed_files.contains (joinPath folder p) = false := by simpa using hnp
  unfold reconcile_tick
  rw [scan_directory_eq]
  have hfil : (([p].map (joinPath folder)).filter
      (fun x => isfile x &&
        !((on_created out st (joinPath folder p)).processed_files.contains x)))
      = [joinPath folder p] := by
    show ([joinPath folder p].filter
      (fun x => isfile x && !(st.processed_files.contains x))) = [joinPath folder p]
    simp [List.filter, hf, hnp]
  rw [hfil]
  rw [show ([joinPath folder p].insertionSort fun a b => mtime a ≤ mtime b)
      = [joinPath folder p] from rfl]
  show countInvocations (joinPath folder p)
      ((st.log ++ [ScanEvent.invoked (joinPath folder p)
          (FileEventHandler.process out (joinPath folder p))])
        ++ processLog out [joinPath folder p]) = _
  unfold processLog countInvocations
  simp [List.filter_append, processLog]

/-- **C6**: the reconcile tick contract.  One `scan_directory` pass processes
exactly the regular files of the listing whose joined paths are not already
in `processed_files`, in ascending modification-time order (a permutation of
the filtered listing, pairwise sorted by `mtime`), and for each file in that
order emits the processor invocation immediately followed by the insertion
of the path into `processed_files` (insertion after the invocation returns,
regardless of the processing result, which `processLog` records verbatim). -/
theorem C6_reconcile_tick_contract (out folder : String) (listing : List String)
    (isfile : String → Bool) (mtime : String → Int) (processed : List String) :
    ∃ sorted : List String,
      scan_directory out folder listing isfile mtime processed
        = (processLog out sorted, processed ++ sorted)
      ∧ sorted.Perm ((listing.map (joinPath folder)).filter
          (fun p => isfile p && !(processed.contains p)))
      ∧ sorted.Pairwise (fun a b => mtime a ≤ mtime b)
      ∧ (∀ p, p ∈ sorted ↔
          (p ∈ listing.map (joinPath folder) ∧ isfile p = true ∧ p ∉ processed)) := by
  haveI htot : IsTotal String (fun a b => mtime a ≤ mtime b) :=
    ⟨fun a b => le_total (mtime a) (mtime b)⟩
  haveI htr : IsTrans String (fun a b => mtime a ≤ mtime b) :=
    ⟨fun _ _ _ hab hbc => le_trans hab hbc⟩
  refine ⟨_, scan_directory_eq out folder listing isfile mtime processed,
    List.perm_insertionSort _ _, List.sorted_insertionSort _ _, ?_⟩
  intro p
  rw [(List.perm_insertionSort _ _).mem_iff, List.mem_filter]
  simp

/-- **C8**: the extension is stored verbatim.  A successful canonical decode
stores the tenth split segment character-for-character as `extension`
(`self.extension.lower()` discards its result); a successful ingest decode
stores the captured `\w+` group verbatim; and `get_name` re-emits the stored
extension verbatim after the final dot — so an upper-case extension stays
upper-case through decode and re-encode, as the concrete `.TIF` example
shows. -/
theorem C8_extension_verbatim :
    (∀ (s : String) (r : ImageFile), mkImageFile s = .ok r →
      ∃ p0 p1 p2 p3 p4 p5 p6 p7 p8 p9,
        resplit s.data = [p0, p1, p2, p3, p4, p5, p6, p7, p8, p9] ∧ r.extension = ⟨p9⟩)
    ∧ (∀ (s : String) (r : ImageFile) (g1 g2 g3 g4 g5 g6 : List Char),
        ingestMatch s.data = some (g1, g2, g3, g4, g5, g6) →
        ImageFile.get_ImageFile_from_xOpenSPIM_filename s = .ok r → r.extension = ⟨g6⟩)
    ∧ (∀ r : ImageFile, ∃ pre, r.get_name.data = pre ++ '.' :: r.extension.data)
    ∧ mkImageFile "timelapseID-x_SPC-1_TP-1_ILL-1_CAM-1_CH-1_PL-1-outOf-1.TIF"
        = .ok ⟨"", "x", 1, 1, 1, 1, 1, 1, 1, "", "TIF"⟩
    ∧ ImageFile.get_name ⟨"", "x", 1, 1, 1, 1, 1, 1, 1, "", "TIF"⟩
        = "timelapseID-x_SPC-0001_TP-0001_ILL-1_CAM-1_CH-01_PL-0001-outOf-0001.TIF" := by
  refine ⟨fun s r h => mkImageFileCore_ok_inv h, ?_, ?_, rfl, rfl⟩
  · intro s r g1 g2 g3 g4 g5 g6 hm hd
    rw [ingest_decode_eq hm] at hd
    cases hd
    rfl
  · intro r
    exact ⟨_, data_dot_ext _ _⟩

theorem C8_extension_verbatim_witness :
    (∃ p0 p1 p2 p3 p4 p5 p6 p7 p8 p9,
      resplit "timelapseID-y_SPC-2_TP-2_ILL-0_CAM-0_CH-02_PL-0002-outOf-0002.BMP".data
        = [p0, p1, p2, p3, p4, p5, p6, p7, p8, p9]
      ∧ (⟨"", "y", 2, 2, 0, 0, 2, 2, 2, "", "BMP"⟩ : ImageFile).extension = ⟨p9⟩)
    ∧ (⟨"", "20240808-111112", 2, 3, 0, 0, 1, 4, 1, "", "tif"⟩ : ImageFile).extension = "tif" :=
  ⟨C8_extension_verbatim.1 "timelapseID-y_SPC-2_TP-2_ILL-0_CAM-0_CH-02_PL-0002-outOf-0002.BMP"
      ⟨"", "y", 2, 2, 0, 0, 2, 2, 2, "", "BMP"⟩ rfl,
   C8_extension_verbatim.2.1 "_channel01_position0002_time0003_view0_z0004.tif"
      ⟨"", "20240808-111112", 2, 3, 0, 0, 1, 4, 1, "", "tif"⟩
      "01".data "0002".data "0003".data "0".data "0004".data "tif".data rfl rfl⟩

/-- **C9**: per-file error containment.  `FileEventHandler.process` is total
in the model — it yields either a copy or a reported error, never an escaping
exception; when decoding the basename fails the error is reported and no
copy target is produced (no file is created in the destination); for the
concrete `randomfile.tif` the decode fails with the ingest error; and a scan
over `randomfile.tif` followed by a well-formed file still processes the
subsequent file. -/
theorem C9_error_containment :
    (∀ out p : String, (∃ dst, FileEventHandler.process out p = .copied p dst)
        ∨ (∃ m, FileEventHandler.process out p = .errorReported m))
    ∧ (∀ (out p : String) (e : NotImagePlaneFile),
        ImageFile.get_ImageFile_from_xOpenSPIM_filename (baseName p) = .error e →
        FileEventHandler.process out p = .errorReported e.msg)
    ∧ (∀ out : String, FileEventHandler.process out "randomfile.tif"
        = .errorReported xOpenSPIMErrMsg)
    ∧ scan_directory "dest" ""
        ["randomfile.tif", "_channel01_position0002_time0003_view0_z0004.tif"]
        (fun _ => true) (fun p => if p = "randomfile.tif" then 0 else 1) []
      = ([ScanEvent.invoked "randomfile.tif" (.errorReported xOpenSPIMErrMsg),
          ScanEvent.inserted "randomfile.tif",
          ScanEvent.invoked "_channel01_position0002_time0003_view0_z0004.tif"
            (.copied "_channel01_position0002_time0003_view0_z0004.tif"
              "dest/timelapseID-20240808-111112_SPC-0002_TP-0003_ILL-0_CAM-0_CH-01_PL-0004-outOf-0001.tif"),
          ScanEvent.inserted "_channel01_position0002_time0003_view0_z0004.tif"],
         ["randomfile.tif", "_channel01_position0002_time0003_view0_z0004.tif"]) := by
  refine ⟨?_, ?_, fun _ => rfl, rfl⟩
  · intro out p
    rcases hdec : ImageFile.get_ImageFile_from_xOpenSPIM_filename (baseName p) with e | r
    · right
      exact ⟨e.msg, by unfold FileEventHandler.process; rw [hdec]⟩
    · left
      exact ⟨_, by unfold FileEventHandler.process; rw [hdec]⟩
  · intro out p e h
    unfold FileEventHandler.process
    rw [h]

theorem C9_error_containment_witness :
    FileEventHandler.process "dest" "randomfile.tif" = .errorReported xOpenSPIMErrMsg :=
  C9_error_containment.2.1 "dest" "randomfile.tif" ⟨xOpenSPIMErrMsg⟩ rfl

/-- **C10**: ingest decoding is anchored only at the start and ignores
trailing characters after the matched portion: appending anything to a
filename that decodes successfully still decodes successfully with all
numeric fields unchanged (only the `\w+` extension group can change, and for
the `.tif.bak` example it stays `tif`); while a filename that does not begin
with the literal `_channel` is rejected. -/
theorem C10_prefix_anchoring :
    (∀ (f junk : String) (r : ImageFile),
        ImageFile.get_ImageFile_from_xOpenSPIM_filename f = .ok r →
        ∃ r' : ImageFile,
          ImageFile.get_ImageFile_from_xOpenSPIM_filename (f ++ junk) = .ok r'
          ∧ r'.channel = r.channel ∧ r'.specimen = r.specimen
          ∧ r'.time_point = r.time_point ∧ r'.plane = r.plane)
    ∧ ImageFile.get_ImageFile_from_xOpenSPIM_filename
        "_channel01_position0002_time0003_view0_z0004.tif.bak"
      = .ok ⟨"", "20240808-111112", 2, 3, 0, 0, 1, 4, 1, "", "tif"⟩
    ∧ (∀ f : String, ¬ ("_channel".data <+: f.data) →
        ImageFile.get_ImageFile_from_xOpenSPIM_filename f = .error ⟨xOpenSPIMErrMsg⟩) := by
  refine ⟨?_, rfl, fun f h => ingest_reject_of_no_channel h⟩
  intro f junk r h
  obtain ⟨g1, g2, g3, g4, g5, g6, hm⟩ := ingest_decode_ok_inv h
  have hs := ingestMatch_spec hm
  obtain ⟨g6x, hne, hm'⟩ := hs.2.2.2.2.2.2 junk.data
  have hdq : ingestMatch (f ++ junk).data = some (g1, g2, g3, g4, g5, g6x) := by
    rw [String.data_append]
    exact hm'
  rw [ingest_decode_eq hm] at h
  cases h
  exact ⟨_, ingest_decode_eq hdq, rfl, rfl, rfl, rfl⟩

theorem C10_prefix_anchoring_witness :
    (∃ r' : ImageFile,
      ImageFile.get_ImageFile_from_xOpenSPIM_filename
          ("_channel01_position0002_time0003_view0_z0004.tif" ++ "_extra")
        = .ok r'
      ∧ r'.channel = (1 : Int) ∧ r'.specimen = (2 : Int) ∧ r'.time_point = (3 : Int)
      ∧ r'.plane = (4 : Int))
    ∧ ImageFile.get_ImageFile_from_xOpenSPIM_filename "randomfile.tif"
        = .error ⟨xOpenSPIMErrMsg⟩ :=
  ⟨C10_prefix_anchoring.1 "_channel01_position0002_time0003_view0_z0004.tif" "_extra"
      ⟨"", "20240808-111112", 2, 3, 0, 0, 1, 4, 1, "", "tif"⟩ rfl,
   C10_prefix_anchoring.2.2 "randomfile.tif" (by decide)⟩

theorem C4_at_least_once_witness :
    (on_created "out" ⟨["old"], []⟩ (joinPath "in" "f.tif")).processed_files = ["old"]
    ∧ countInvocations (joinPath "in" "f.tif")
        ((reconcile_tick "out" "in" ["f.tif"] (fun _ => true) (fun _ => 0)
          (on_created "out" ⟨["old"], []⟩ (joinPath "in" "f.tif"))).log)
      = countInvocations (joinPath "in" "f.tif") ([] : List ScanEvent) + 2 :=
  C4_at_least_once "out" "in" "f.tif" (fun _ => true) (fun _ => 0) ⟨["old"], []⟩ rfl
    (by decide)
